import Mathlib

/-!
# spitz: a pool of named templates with layouts and reload-on-change

Shallow embedding of `spitz.go` and `funcmap.go`.

* Go maps `map[string]*T` are association lists with at most one live binding
  per key (`mapGet` reads the first binding, `mapSet` overwrites it in place
  or adds a new one, `mapLen` counts distinct keys).  Every `*tmpl` stored in
  a pool is created by exactly one registration call, so no two keys alias
  the same record and a record can be stored by value.
* The filesystem and the clock are a `World`: `stat` and `readFile` may fail
  independently of each other, `now` is the reading of `time.Now()`.
* `html/template` and package `path` are external: they are the fields of
  `Deps`.  A parsed template is a value of a type `Plate`; a template
  execution is abstracted to the bytes it writes to the `io.Writer` together
  with the error it returns (what `Execute` does inside the
  `*template.Template` is not modelled); an `io.Writer` is the string of
  bytes written to it so far.  The argument `data interface{}` is a value of
  a type `Data`.
* A call runs to its end before the next one starts: calls racing on one pool
  are outside the model.
* `time.Time` values are natural numbers (instants on one time line, `0` being
  the zero `time.Time`), `After` is `<` flipped.
* Logging under `Verbose` has no effect on the state and is left out.
-/

namespace Spitz

/-! ## Go maps with string keys -/

/-- Value bound to `k`, the `v, ok := m[k]` of Go. -/
def mapGet {α : Type} : List (String × α) → String → Option α
  | [], _ => none
  | (k', v) :: rest, k => if k' = k then some v else mapGet rest k

/-- Assignment `m[k] = v`: overwrites the binding of `k` or adds one. -/
def mapSet {α : Type} : List (String × α) → String → α → List (String × α)
  | [], k, v => [(k, v)]
  | (k', v') :: rest, k, v =>
    if k' = k then (k, v) :: rest else (k', v') :: mapSet rest k v

/-- Number of keys, the `len(m)` of Go. -/
def mapLen {α : Type} (m : List (String × α)) : Nat :=
  ((m.map Prod.fst).dedup).length

/-! ## Errors and outcomes -/

/-- Error values returned by the package. -/
inductive Err where
  /-- `no files for template %q` -/
  | noFiles (name : String)
  /-- `layout %q not found` -/
  | layoutNotFound (name : String)
  /-- `template %q not found` -/
  | templateNotFound (name : String)
  /-- `template %q not registered` -/
  | templateNotRegistered (name : String)
  /-- an error value produced by `os` or by `html/template` -/
  | external (msg : String)
  deriving DecidableEq, Repr

/-- How a call ends: `nil` error, a non-nil error, or a run-time panic
(calling `Execute` through a nil `*template.Template`). -/
inductive Outcome where
  | ok
  | error (e : Err)
  | panic
  deriving DecidableEq, Repr

/-- The `error` a fallible library call returns, as an outcome. -/
def Outcome.ofOption : Option Err → Outcome
  | none => Outcome.ok
  | some e => Outcome.error e

/-! ## The environment -/

abbrev Time := Nat

/-- State of the filesystem and of the clock at the time of a call. -/
structure World where
  /-- `os.Stat(filename)` followed by `ModTime()`; `none` when `Stat` fails -/
  stat : String → Option Time
  /-- content of a file, `none` when it cannot be read -/
  readFile : String → Option String
  /-- `time.Now()` -/
  now : Time

/-- The template engine and the path functions the package calls. -/
structure Deps (Plate Data : Type) where
  /-- `path.Join(dir, file)` -/
  pathJoin : String → String → String
  /-- `path.Base(filename)` -/
  pathBase : String → String
  /-- `template.New(name).Delims(l, r).Funcs(funcMap).ParseFiles(files...)`,
  reading the files through the given function -/
  parseFiles : String → String → String → (String → Option String) → List String →
    Except Err Plate
  /-- `template.New(name).Funcs(funcMap).Parse(content)` -/
  parseString : String → String → Except Err Plate
  /-- `plate.Execute(wr, data)`: the bytes written to `wr` and the error -/
  execute : Plate → Data → String × Option Err
  /-- `plate.ExecuteTemplate(wr, innerName, data)` -/
  executeTemplate : Plate → String → Data → String × Option Err

/-! ## tfiles -/

structure tfile where
  filename : String
  modTime : Time
  deriving DecidableEq, Repr

abbrev tfiles := List tfile

def singleFile (filename : String) : tfiles :=
  [{ filename := filename, modTime := 0 }]

def multiFile (filenames : List String) : tfiles :=
  filenames.map (fun v => { filename := v, modTime := 0 })

def tfiles.name {Plate Data : Type} (d : Deps Plate Data) (tf : tfiles) : String :=
  match tf with
  | [] => ""
  | f :: _ => d.pathBase f.filename

def tfiles.filenames (tf : tfiles) : List String :=
  tf.map (fun v => v.filename)

/-- The loop of `setModTimes`: files before the first one that cannot be
stat'ed get their `modTime` refreshed, the rest are left as they are. -/
def tfiles.setModTimes (w : World) : tfiles → tfiles × Option Err
  | [] => ([], none)
  | v :: rest =>
    match w.stat v.filename with
    | none => (v :: rest, some (Err.external v.filename))
    | some m =>
      let r := tfiles.setModTimes w rest
      ({ v with modTime := m } :: r.1, r.2)

def tfiles.modifiedSince (w : World) : tfiles → Time → Bool
  | [], _ => false
  | v :: rest, t =>
    match w.stat v.filename with
    | some m => if t < m then true else tfiles.modifiedSince w rest t
    | none => tfiles.modifiedSince w rest t

/-! ## tmpl, layout, Pool -/

structure tmpl (Plate : Type) where
  name : String
  files : tfiles
  /-- `*template.Template`, `none` for the nil pointer -/
  plate : Option Plate
  parsedAt : Time
  leftDelim : String
  rightDelim : String
  deriving DecidableEq, Repr

structure layout where
  header : String
  footer : String
  deriving DecidableEq, Repr

structure Pool (Plate : Type) where
  contentDir : String
  reload : Bool
  tmpls : List (String × tmpl Plate)
  layouts : List (String × layout)
  deriving DecidableEq, Repr

def New {Plate : Type} (contentDir : String) (reload : Bool) : Pool Plate :=
  { contentDir := contentDir, reload := reload, tmpls := [], layouts := [] }

def Pool.Len {Plate : Type} (p : Pool Plate) : Nat := mapLen p.tmpls

/-- The file name `fmt.Sprintf("%s.tmpl.html", name)`. -/
def ename (name : String) : String := name ++ ".tmpl.html"

section ops

variable {Plate Data : Type}

/-- Method `parse`: the record after the call and the error returned. -/
def tmpl.parse (d : Deps Plate Data) (w : World) (t : tmpl Plate) : tmpl Plate × Option Err :=
  if t.files.length = 0 then
    (t, some (Err.noFiles t.name))
  else
    match d.parseFiles (tfiles.name d t.files) t.leftDelim t.rightDelim w.readFile
        (tfiles.filenames t.files) with
    | Except.error e => (t, some e)
    | Except.ok tm =>
      let r := tfiles.setModTimes w t.files
      ({ t with plate := some tm, parsedAt := w.now, files := r.1 }, r.2)

def tmpl.checkReload (d : Deps Plate Data) (w : World) (t : tmpl Plate) : tmpl Plate :=
  if t.files.length = 0 then
    t
  else if tfiles.modifiedSince w t.files t.parsedAt then
    (tmpl.parse d w t).1
  else
    t

/-- Result of a registration or reload call: the pool after it and the
error returned. -/
structure RegResult (Plate : Type) where
  pool : Pool Plate
  err : Option Err

/-- Result of a render call: the pool after it, the bytes the writer holds
and how the call ended. -/
structure RunResult (Plate : Type) where
  pool : Pool Plate
  wr : String
  outcome : Outcome

def Pool.Register (d : Deps Plate Data) (w : World) (p : Pool Plate)
    (name leftDelim rightDelim : String) : RegResult Plate :=
  let filename := d.pathJoin p.contentDir (ename name)
  let nt : tmpl Plate :=
    { name := name, files := singleFile filename, plate := none, parsedAt := 0,
      leftDelim := leftDelim, rightDelim := rightDelim }
  match tmpl.parse d w nt with
  | (_, some e) => { pool := p, err := some e }
  | (nt', none) => { pool := { p with tmpls := mapSet p.tmpls name nt' }, err := none }

/-- The header is registered in world `wh`, then the footer in world `wf`. -/
def Pool.RegisterLayout (d : Deps Plate Data) (wh wf : World) (p : Pool Plate)
    (name header footer leftDelim rightDelim : String) : RegResult Plate :=
  match Pool.Register d wh p header leftDelim rightDelim with
  | { pool := p1, err := some e } => { pool := p1, err := some e }
  | { pool := p1, err := none } =>
    match Pool.Register d wf p1 footer leftDelim rightDelim with
    | { pool := p2, err := some e } => { pool := p2, err := some e }
    | { pool := p2, err := none } =>
      { pool := { p2 with layouts := mapSet p2.layouts name { header := header, footer := footer } },
        err := none }

def Pool.RegisterString (d : Deps Plate Data) (p : Pool Plate) (name content : String) :
    RegResult Plate :=
  match d.parseString name content with
  | Except.error e => { pool := p, err := some e }
  | Except.ok t =>
    let nt : tmpl Plate :=
      { name := "", files := [], plate := some t, parsedAt := 0, leftDelim := "",
        rightDelim := "" }
    { pool := { p with tmpls := mapSet p.tmpls name nt }, err := none }

def Pool.RegisterMulti (d : Deps Plate Data) (w : World) (p : Pool Plate)
    (name leftDelim rightDelim : String) (filenames : List String) : RegResult Plate :=
  let paths := filenames.map (fun v => d.pathJoin p.contentDir (ename v))
  let files := multiFile paths
  let nt : tmpl Plate :=
    { name := name, files := files, plate := none, parsedAt := 0,
      leftDelim := leftDelim, rightDelim := rightDelim }
  match tmpl.parse d w nt with
  | (_, some e) => { pool := p, err := some e }
  | (nt', none) => { pool := { p with tmpls := mapSet p.tmpls name nt' }, err := none }

/-- The record `p.tmpls[name]` points to is updated in place by
`checkReload` when the pool reloads. -/
def Pool.templateRun (d : Deps Plate Data) (w : World) (p : Pool Plate) (name : String)
    (data : Data) (wr : String) : RunResult Plate :=
  match mapGet p.tmpls name with
  | none => { pool := p, wr := wr, outcome := Outcome.error (Err.templateNotFound name) }
  | some t =>
    let t' := if p.reload then tmpl.checkReload d w t else t
    let p' := if p.reload then { p with tmpls := mapSet p.tmpls name t' } else p
    match t'.plate with
    | none => { pool := p', wr := wr, outcome := Outcome.panic }
    | some pl =>
      let r := d.execute pl data
      { pool := p', wr := wr ++ r.1, outcome := Outcome.ofOption r.2 }

def Pool.templateRunInner (d : Deps Plate Data) (w : World) (p : Pool Plate)
    (name innerName : String) (data : Data) (wr : String) : RunResult Plate :=
  match mapGet p.tmpls name with
  | none => { pool := p, wr := wr, outcome := Outcome.error (Err.templateNotFound name) }
  | some t =>
    let t' := if p.reload then tmpl.checkReload d w t else t
    let p' := if p.reload then { p with tmpls := mapSet p.tmpls name t' } else p
    match t'.plate with
    | none => { pool := p', wr := wr, outcome := Outcome.panic }
    | some pl =>
      let r := d.executeTemplate pl innerName data
      { pool := p', wr := wr ++ r.1, outcome := Outcome.ofOption r.2 }

/-- The three steps run in the worlds `w1`, `w2`, `w3`. -/
def Pool.Render (d : Deps Plate Data) (w1 w2 w3 : World) (p : Pool Plate)
    (layout name : String) (data : Data) (wr : String) : RunResult Plate :=
  match mapGet p.layouts layout with
  | none => { pool := p, wr := wr, outcome := Outcome.error (Err.layoutNotFound layout) }
  | some lout =>
    let r1 := Pool.templateRun d w1 p lout.header data wr
    if r1.outcome ≠ Outcome.ok then r1
    else
      let r2 := Pool.templateRun d w2 r1.pool name data r1.wr
      if r2.outcome ≠ Outcome.ok then r2
      else Pool.templateRun d w3 r2.pool lout.footer data r2.wr

def Pool.RenderMulti (d : Deps Plate Data) (w1 w2 w3 : World) (p : Pool Plate)
    (layout name innerName : String) (data : Data) (wr : String) : RunResult Plate :=
  match mapGet p.layouts layout with
  | none => { pool := p, wr := wr, outcome := Outcome.error (Err.layoutNotFound layout) }
  | some lout =>
    let r1 := Pool.templateRun d w1 p lout.header data wr
    if r1.outcome ≠ Outcome.ok then r1
    else
      let r2 := Pool.templateRunInner d w2 r1.pool name innerName data r1.wr
      if r2.outcome ≠ Outcome.ok then r2
      else Pool.templateRun d w3 r2.pool lout.footer data r2.wr

def Pool.RenderNoLayout (d : Deps Plate Data) (w : World) (p : Pool Plate) (name : String)
    (data : Data) (wr : String) : RunResult Plate :=
  Pool.templateRun d w p name data wr

/-- The field `wr` of the result is the string returned. -/
def Pool.RenderToString (d : Deps Plate Data) (w1 w2 w3 : World) (p : Pool Plate)
    (layout template : String) (data : Data) : RunResult Plate :=
  let r := Pool.Render d w1 w2 w3 p layout template data ""
  if r.outcome ≠ Outcome.ok then { r with wr := "" } else r

/-- The field `wr` of the result is the string returned. -/
def Pool.RenderNoLayoutToString (d : Deps Plate Data) (w : World) (p : Pool Plate)
    (template : String) (data : Data) : RunResult Plate :=
  let r := Pool.RenderNoLayout d w p template data ""
  if r.outcome ≠ Outcome.ok then { r with wr := "" } else r

def Pool.reloadTemplate (d : Deps Plate Data) (w : World) (p : Pool Plate) (name : String) :
    RegResult Plate :=
  match mapGet p.tmpls name with
  | none => { pool := p, err := some (Err.templateNotRegistered name) }
  | some t =>
    let r := tmpl.parse d w t
    { pool := { p with tmpls := mapSet p.tmpls name r.1 }, err := r.2 }

/-- Every registered template has an executable: the state of a pool that
was built by `New` and the registration calls. -/
def Pool.platesSet (p : Pool Plate) : Prop :=
  ∀ n t, mapGet p.tmpls n = some t → t.plate ≠ none

end ops

/-! ## funcmap.go

Go strings that hold valid UTF-8 are lists of characters: `strings.Split` on
a newline, `strings.TrimSpace` and `HTMLEscapeString` act on the characters of
such a string. -/

/-- `unicode.IsSpace`. -/
def isSpace (c : Char) : Bool :=
  c.toNat = 0x09 || c.toNat = 0x0A || c.toNat = 0x0B || c.toNat = 0x0C || c.toNat = 0x0D ||
  c.toNat = 0x20 || c.toNat = 0x85 || c.toNat = 0xA0 || c.toNat = 0x1680 ||
  (0x2000 ≤ c.toNat && c.toNat ≤ 0x200A) || c.toNat = 0x2028 || c.toNat = 0x2029 ||
  c.toNat = 0x202F || c.toNat = 0x205F || c.toNat = 0x3000

/-- `strings.TrimSpace`. -/
def TrimSpace (s : List Char) : List Char :=
  ((s.dropWhile isSpace).reverse.dropWhile isSpace).reverse

/-- `strings.Split(s, sep)` for a separator of one character. -/
def Split : List Char → Char → List (List Char)
  | [], _ => [[]]
  | c :: cs, sep =>
    if c = sep then [] :: Split cs sep
    else
      match Split cs sep with
      | [] => [[c]]
      | l :: ls => (c :: l) :: ls

/-- What `HTMLEscape` of `text/template` writes for one character: the five
entities, and U+FFFD for the NUL character. -/
def htmlEscape (c : Char) : List Char :=
  if c = Char.ofNat 34 then "&#34;".data
  else if c = Char.ofNat 39 then "&#39;".data
  else if c = '&' then "&amp;".data
  else if c = '<' then "&lt;".data
  else if c = '>' then "&gt;".data
  else if c = Char.ofNat 0 then [Char.ofNat 0xFFFD]
  else [c]

/-- `template.HTMLEscapeString`. -/
def HTMLEscapeString (s : List Char) : List Char := s.flatMap htmlEscape

/-- The loop of `simpleFormat` over `lines`, `paragraphs` being the slice
built so far. -/
def simpleFormatLoop : List (List Char) → List (List Char) → List (List Char)
  | [], paragraphs => paragraphs
  | v :: rest, paragraphs =>
    let line := TrimSpace v
    if line.length = 0 then simpleFormatLoop rest paragraphs
    else simpleFormatLoop rest (paragraphs ++ ["<p>".data ++ HTMLEscapeString line ++ "</p>".data])

/-- `strings.Join(paragraphs, "")` of the paragraphs the loop collects. -/
def simpleFormat (s : String) : String :=
  String.mk (simpleFormatLoop (Split s.data '\n') []).flatten

/-! ## A concrete environment

A small engine on which the operations can be evaluated: a template is its
source text, the source `{{` does not parse, executing a template writes its
text, and executing the text `partial{{.Missing.Field}}` writes `partial` and
then fails, the way `Execute` stops at a fault after the output produced so
far has reached the writer. -/

/-- Reads every file, in order; `none` when one cannot be read. -/
def toyReadAll (read : String → Option String) : List String → Option (List String)
  | [] => some []
  | f :: rest =>
    match read f with
    | none => none
    | some src =>
      match toyReadAll read rest with
      | none => none
      | some srcs => some (src :: srcs)

def toyParse (src : String) : Except Err String :=
  if src = "\x7b\x7b" then Except.error (Err.external "unclosed action") else Except.ok src

def toyExecute (pl : String) : String × Option Err :=
  if pl = "partial\x7b\x7b.Missing.Field\x7d\x7d" then
    ("partial", some (Err.external "nil pointer evaluating"))
  else
    (pl, none)

def toyDeps : Deps String Unit where
  pathJoin dir file := if dir = "" then file else dir ++ "/" ++ file
  pathBase f := String.mk ((f.data.reverse.takeWhile (fun c => c ≠ '/')).reverse)
  parseFiles _ _ _ read files :=
    match toyReadAll read files with
    | none => Except.error (Err.external "open: no such file")
    | some [] => Except.error (Err.external "no files named in call to ParseFiles")
    | some (src :: rest) =>
      if rest.any (fun s => s = "\x7b\x7b") then Except.error (Err.external "unclosed action")
      else toyParse src
  parseString _ content := toyParse content
  execute pl _ := toyExecute pl
  executeTemplate pl _ _ := toyExecute pl

/-- A directory `tpl` holding `header.tmpl.html` and `body.tmpl.html` but no
`footer.tmpl.html`, at time 10. -/
def worldNoFooter : World where
  stat f :=
    if f = "tpl/header.tmpl.html" then some 5
    else if f = "tpl/body.tmpl.html" then some 6
    else none
  readFile f :=
    if f = "tpl/header.tmpl.html" then some "header template"
    else if f = "tpl/body.tmpl.html" then some "body template"
    else none
  now := 10

/-- A directory `tpl` holding `header.tmpl.html`, `body.tmpl.html` and
`footer.tmpl.html`, at time 10. -/
def worldSite : World where
  stat f :=
    if f = "tpl/header.tmpl.html" then some 5
    else if f = "tpl/body.tmpl.html" then some 6
    else if f = "tpl/footer.tmpl.html" then some 7
    else none
  readFile f :=
    if f = "tpl/header.tmpl.html" then some "header template"
    else if f = "tpl/body.tmpl.html" then some "body template"
    else if f = "tpl/footer.tmpl.html" then some "footer template"
    else none
  now := 10

/-- A directory `tpl` whose only file is `T0.tmpl.html`, with the given
content and the given result of `Stat`, at time `now`. -/
def worldT0 (content : String) (mtime : Option Time) (now : Time) : World where
  stat f := if f = "tpl/T0.tmpl.html" then mtime else none
  readFile f := if f = "tpl/T0.tmpl.html" then some content else none
  now := now

/-- The pool of `TestAutoReload` after `Register("T0", "", "")`: the file was
written at time 5 and parsed at time 10. -/
def poolT0 (reload : Bool) : Pool String :=
  (Pool.Register toyDeps (worldT0 "T0 template" (some 5) 10) (New "tpl" reload) "T0" "" "").pool

/-- The record `poolT0` holds under `T0`. -/
def tmplT0 : tmpl String :=
  { name := "T0", files := [{ filename := "tpl/T0.tmpl.html", modTime := 5 }],
    plate := some "T0 template", parsedAt := 10, leftDelim := "", rightDelim := "" }

/-- The pool of `TestRenderLayout`: layout `alayout` and template `body`. -/
def poolSite (reload : Bool) : Pool String :=
  (Pool.Register toyDeps worldSite
    (Pool.RegisterLayout toyDeps worldSite worldSite (New "tpl" reload) "alayout" "header"
      "footer" "" "").pool "body" "" "").pool

/-- The directory of `worldSite` with a header whose execution faults after
it has written `partial`. -/
def worldFaultyHeader : World where
  stat f :=
    if f = "tpl/header.tmpl.html" then some 5
    else if f = "tpl/body.tmpl.html" then some 6
    else if f = "tpl/footer.tmpl.html" then some 7
    else none
  readFile f :=
    if f = "tpl/header.tmpl.html" then some "partial\x7b\x7b.Missing.Field\x7d\x7d"
    else if f = "tpl/body.tmpl.html" then some "body template"
    else if f = "tpl/footer.tmpl.html" then some "footer template"
    else none
  now := 10

/-- Layout `alayout` and template `body` registered from `worldFaultyHeader`. -/
def poolFaultyHeader : Pool String :=
  (Pool.Register toyDeps worldFaultyHeader
    (Pool.RegisterLayout toyDeps worldFaultyHeader worldFaultyHeader (New "tpl" false) "alayout"
      "header" "footer" "" "").pool "body" "" "").pool

/-! ## Facts about maps -/

theorem mapGet_mapSet_same {α : Type} (m : List (String × α)) (k : String) (v : α) :
    mapGet (mapSet m k v) k = some v := by
  induction m with
  | nil => simp [mapSet, mapGet]
  | cons hd tl ih =>
    obtain ⟨k', v'⟩ := hd
    by_cases h : k' = k
    · simp [mapSet, mapGet, h]
    · simp [mapSet, mapGet, h, ih]

theorem mapGet_mapSet_ne {α : Type} (m : List (String × α)) (k k' : String) (v : α)
    (h : k' ≠ k) : mapGet (mapSet m k v) k' = mapGet m k' := by
  induction m with
  | nil => simp [mapSet, mapGet, Ne.symm h]
  | cons hd tl ih =>
    obtain ⟨k0, v0⟩ := hd
    by_cases h0 : k0 = k
    · subst h0
      simp [mapSet, mapGet, Ne.symm h]
    · by_cases h1 : k0 = k'
      · subst h1
        simp [mapSet, mapGet, h0]
      · simp [mapSet, mapGet, h0, h1, ih]

theorem mapSet_self {α : Type} (m : List (String × α)) (k : String) (v : α)
    (h : mapGet m k = some v) : mapSet m k v = m := by
  induction m with
  | nil => simp [mapGet] at h
  | cons hd tl ih =>
    obtain ⟨k0, v0⟩ := hd
    by_cases h0 : k0 = k
    · subst h0
      simp [mapGet] at h
      simp [mapSet, h]
    · simp [mapGet, h0] at h
      simp [mapSet, h0, ih h]

theorem mapGet_eq_none_iff {α : Type} (m : List (String × α)) (k : String) :
    mapGet m k = none ↔ k ∉ m.map Prod.fst := by
  induction m with
  | nil => simp [mapGet]
  | cons hd tl ih =>
    obtain ⟨k0, v0⟩ := hd
    by_cases h0 : k0 = k
    · simp [mapGet, h0]
    · simp only [mapGet, h0, if_false, ih, List.map_cons, List.mem_cons]
      constructor
      · intro h1 h2
        rcases h2 with h2 | h2
        · exact h0 h2.symm
        · exact h1 h2
      · intro h1 h2
        exact h1 (Or.inr h2)

theorem keys_mapSet_mem {α : Type} (m : List (String × α)) (k : String) (v : α) (x : String) :
    x ∈ (mapSet m k v).map Prod.fst ↔ x = k ∨ x ∈ m.map Prod.fst := by
  induction m with
  | nil => simp [mapSet]
  | cons hd tl ih =>
    obtain ⟨k0, v0⟩ := hd
    by_cases h0 : k0 = k
    · subst h0
      simp [mapSet]
    · simp only [mapSet, h0, if_false, List.map_cons, List.mem_cons, ih]
      tauto

theorem mapLen_mapSet_new {α : Type} (m : List (String × α)) (k : String) (v : α)
    (h : mapGet m k = none) : mapLen (mapSet m k v) = mapLen m + 1 := by
  induction m with
  | nil => simp [mapSet, mapLen]
  | cons hd tl ih =>
    obtain ⟨k0, v0⟩ := hd
    have h0 : k0 ≠ k := by
      intro h0
      simp [mapGet, h0] at h
    have htl : mapGet tl k = none := by
      simpa [mapGet, h0] using h
    have ih' := ih htl
    unfold mapLen at ih' ⊢
    simp only [mapSet, h0, if_false, List.map_cons]
    by_cases hmem : k0 ∈ tl.map Prod.fst
    · have hmem' : k0 ∈ (mapSet tl k v).map Prod.fst :=
        (keys_mapSet_mem tl k v k0).2 (Or.inr hmem)
      rw [List.dedup_cons_of_mem hmem', List.dedup_cons_of_mem hmem]
      exact ih'
    · have hmem' : k0 ∉ (mapSet tl k v).map Prod.fst := by
        intro hc
        rcases (keys_mapSet_mem tl k v k0).1 hc with hc | hc
        · exact h0 hc
        · exact hmem hc
      rw [List.dedup_cons_of_not_mem hmem', List.dedup_cons_of_not_mem hmem]
      simp only [List.length_cons]
      omega

/-! ## tfiles -/

theorem modifiedSince_eq_true_iff (w : World) (tf : tfiles) (t : Time) :
    tfiles.modifiedSince w tf t = true ↔
      ∃ v ∈ tf, ∃ m, w.stat v.filename = some m ∧ t < m := by
  induction tf with
  | nil => simp [tfiles.modifiedSince]
  | cons v rest ih =>
    cases hs : w.stat v.filename with
    | none =>
      simp only [tfiles.modifiedSince, hs, ih, List.mem_cons]
      constructor
      · rintro ⟨x, hx, m, h1, h2⟩
        exact ⟨x, Or.inr hx, m, h1, h2⟩
      · rintro ⟨x, hx, m, h1, h2⟩
        rcases hx with hx | hx
        · subst hx
          rw [hs] at h1
          cases h1
        · exact ⟨x, hx, m, h1, h2⟩
    | some m0 =>
      by_cases hlt : t < m0
      · simp only [tfiles.modifiedSince, hs, hlt, if_true, true_iff]
        exact ⟨v, List.mem_cons_self _ _, m0, hs, hlt⟩
      · simp only [tfiles.modifiedSince, hs, hlt, if_false, ih, List.mem_cons]
        constructor
        · rintro ⟨x, hx, m, h1, h2⟩
          exact ⟨x, Or.inr hx, m, h1, h2⟩
        · rintro ⟨x, hx, m, h1, h2⟩
          rcases hx with hx | hx
          · subst hx
            rw [hs] at h1
            cases h1
            exact absurd h2 hlt
          · exact ⟨x, hx, m, h1, h2⟩

/-! ## parse -/

theorem setModTimes_err_none_iff (w : World) (tf : tfiles) :
    (tfiles.setModTimes w tf).2 = none ↔ ∀ v ∈ tf, w.stat v.filename ≠ none := by
  induction tf with
  | nil => simp [tfiles.setModTimes]
  | cons v rest ih =>
    cases hs : w.stat v.filename with
    | none =>
      simp only [tfiles.setModTimes, hs, List.mem_cons]
      constructor
      · intro h
        cases h
      · intro h
        exact absurd hs (h v (Or.inl rfl))
    | some m =>
      simp only [tfiles.setModTimes, hs, ih, List.mem_cons]
      constructor
      · intro h x hx
        rcases hx with hx | hx
        · subst hx
          simp [hs]
        · exact h x hx
      · intro h x hx
        exact h x (Or.inr hx)

section parse

variable {Plate Data : Type}

theorem parse_err_none_iff (d : Deps Plate Data) (w : World) (t : tmpl Plate) :
    (tmpl.parse d w t).2 = none ↔
      t.files ≠ [] ∧
      (∃ tm, d.parseFiles (tfiles.name d t.files) t.leftDelim t.rightDelim w.readFile
        (tfiles.filenames t.files) = Except.ok tm) ∧
      ∀ v ∈ t.files, w.stat v.filename ≠ none := by
  unfold tmpl.parse
  by_cases h0 : t.files.length = 0
  · have : t.files = [] := List.length_eq_zero.mp h0
    simp [this]
  · have hne : t.files ≠ [] := fun h => h0 (by simp [h])
    simp only [h0, if_false]
    cases hp : d.parseFiles (tfiles.name d t.files) t.leftDelim t.rightDelim w.readFile
        (tfiles.filenames t.files) with
    | error e => simp
    | ok tm => simp [setModTimes_err_none_iff, hne]

theorem parse_plate_of_ok (d : Deps Plate Data) (w : World) (t : tmpl Plate)
    (h : (tmpl.parse d w t).2 = none) : (tmpl.parse d w t).1.plate ≠ none := by
  unfold tmpl.parse at h ⊢
  by_cases h0 : t.files.length = 0
  · simp [h0] at h
  · simp only [h0, if_false] at h ⊢
    cases hp : d.parseFiles (tfiles.name d t.files) t.leftDelim t.rightDelim w.readFile
        (tfiles.filenames t.files) with
    | error e => simp [hp] at h
    | ok tm => simp

end parse

/-! ## Registration -/

section registration

variable {Plate Data : Type}

/-- What a registration call guarantees about its result `r`. -/
theorem regResult_of_parse (p : Pool Plate) (name : String) (x : tmpl Plate × Option Err)
    (r : RegResult Plate)
    (hr : r = (match x with
      | (_, some e) => ({ pool := p, err := some e } : RegResult Plate)
      | (nt', none) => { pool := { p with tmpls := mapSet p.tmpls name nt' }, err := none }))
    (hx : x.2 = none → x.1.plate ≠ none) :
    (r.err = none ↔ x.2 = none) ∧
    (r.err = none → ∃ nt : tmpl Plate, nt.plate ≠ none ∧
        r.pool = { p with tmpls := mapSet p.tmpls name nt } ∧
        mapGet r.pool.tmpls name = some nt) ∧
    (r.err ≠ none → r.pool = p) ∧
    (r.err = none → mapGet p.tmpls name = none → r.pool.Len = p.Len + 1) := by
  obtain ⟨nt', e⟩ := x
  cases e with
  | some e =>
    subst hr
    simp
  | none =>
    subst hr
    refine ⟨by simp, ?_, by simp, ?_⟩
    · intro _
      exact ⟨nt', hx rfl, rfl, mapGet_mapSet_same _ _ _⟩
    · intro _ hnew
      exact mapLen_mapSet_new _ _ _ hnew

theorem register_facts (d : Deps Plate Data) (w : World) (p : Pool Plate)
    (name leftDelim rightDelim : String) :
    ((Pool.Register d w p name leftDelim rightDelim).err = none ↔
      (tmpl.parse d w
        { name := name, files := singleFile (d.pathJoin p.contentDir (ename name)),
          plate := none, parsedAt := 0, leftDelim := leftDelim,
          rightDelim := rightDelim }).2 = none) ∧
    ((Pool.Register d w p name leftDelim rightDelim).err = none → ∃ nt : tmpl Plate,
        nt.plate ≠ none ∧
        (Pool.Register d w p name leftDelim rightDelim).pool =
          { p with tmpls := mapSet p.tmpls name nt } ∧
        mapGet (Pool.Register d w p name leftDelim rightDelim).pool.tmpls name = some nt) ∧
    ((Pool.Register d w p name leftDelim rightDelim).err ≠ none →
      (Pool.Register d w p name leftDelim rightDelim).pool = p) ∧
    ((Pool.Register d w p name leftDelim rightDelim).err = none → mapGet p.tmpls name = none →
      (Pool.Register d w p name leftDelim rightDelim).pool.Len = p.Len + 1) :=
  regResult_of_parse p name _ (Pool.Register d w p name leftDelim rightDelim) rfl
    (parse_plate_of_ok d w _)

theorem registerMulti_facts (d : Deps Plate Data) (w : World) (p : Pool Plate)
    (name leftDelim rightDelim : String) (filenames : List String) :
    ((Pool.RegisterMulti d w p name leftDelim rightDelim filenames).err = none ↔
      (tmpl.parse d w
        { name := name,
          files := multiFile (filenames.map (fun v => d.pathJoin p.contentDir (ename v))),
          plate := none, parsedAt := 0, leftDelim := leftDelim,
          rightDelim := rightDelim }).2 = none) ∧
    ((Pool.RegisterMulti d w p name leftDelim rightDelim filenames).err = none →
      ∃ nt : tmpl Plate, nt.plate ≠ none ∧
        (Pool.RegisterMulti d w p name leftDelim rightDelim filenames).pool =
          { p with tmpls := mapSet p.tmpls name nt } ∧
        mapGet (Pool.RegisterMulti d w p name leftDelim rightDelim filenames).pool.tmpls name =
          some nt) ∧
    ((Pool.RegisterMulti d w p name leftDelim rightDelim filenames).err ≠ none →
      (Pool.RegisterMulti d w p name leftDelim rightDelim filenames).pool = p) ∧
    ((Pool.RegisterMulti d w p name leftDelim rightDelim filenames).err = none →
      mapGet p.tmpls name = none →
      (Pool.RegisterMulti d w p name leftDelim rightDelim filenames).pool.Len = p.Len + 1) :=
  regResult_of_parse p name _ (Pool.RegisterMulti d w p name leftDelim rightDelim filenames) rfl
    (parse_plate_of_ok d w _)

theorem registerString_facts (d : Deps Plate Data) (p : Pool Plate) (name content : String) :
    ((Pool.RegisterString d p name content).err = none ↔
        ∃ t, d.parseString name content = Except.ok t) ∧
    ((Pool.RegisterString d p name content).err = none → ∃ nt : tmpl Plate, nt.plate ≠ none ∧
      (Pool.RegisterString d p name content).pool = { p with tmpls := mapSet p.tmpls name nt } ∧
      mapGet (Pool.RegisterString d p name content).pool.tmpls name = some nt) ∧
    ((Pool.RegisterString d p name content).err ≠ none →
      (Pool.RegisterString d p name content).pool = p) ∧
    ((Pool.RegisterString d p name content).err = none → mapGet p.tmpls name = none →
      (Pool.RegisterString d p name content).pool.Len = p.Len + 1) := by
  unfold Pool.RegisterString
  cases hp : d.parseString name content with
  | error e => simp
  | ok t =>
    refine ⟨by simp, ?_, by simp, ?_⟩
    · intro _
      exact ⟨_, by simp, rfl, mapGet_mapSet_same _ _ _⟩
    · intro _ hnew
      exact mapLen_mapSet_new _ _ _ hnew

/-- C1: for `Register`, `RegisterMulti` and `RegisterString`, the call returns
no error exactly when the source parses (and, for file-backed templates, every
backing file can be read and stat'ed); when it returns no error the pool
afterwards is the prior pool with a parsed template stored under `name` (the
layouts are as before), and `Len()` has grown by one when `name` was not
registered; when it returns an error the pool is exactly the prior pool. -/
theorem registration_inserts_iff_no_error (d : Deps Plate Data) (w : World) (p : Pool Plate)
    (name leftDelim rightDelim content : String) (filenames : List String) :
    (∀ r : RegResult Plate,
      (r = Pool.Register d w p name leftDelim rightDelim ∨
       r = Pool.RegisterMulti d w p name leftDelim rightDelim filenames ∨
       r = Pool.RegisterString d p name content) →
      (r.err = none → ∃ nt : tmpl Plate, nt.plate ≠ none ∧
          r.pool = { p with tmpls := mapSet p.tmpls name nt } ∧
          mapGet r.pool.tmpls name = some nt) ∧
      (r.err ≠ none → r.pool = p) ∧
      (r.err = none → mapGet p.tmpls name = none → r.pool.Len = p.Len + 1)) ∧
    ((Pool.Register d w p name leftDelim rightDelim).err = none ↔
      (∃ tm, d.parseFiles (d.pathBase (d.pathJoin p.contentDir (ename name))) leftDelim
        rightDelim w.readFile [d.pathJoin p.contentDir (ename name)] = Except.ok tm) ∧
      w.stat (d.pathJoin p.contentDir (ename name)) ≠ none) ∧
    ((Pool.RegisterMulti d w p name leftDelim rightDelim filenames).err = none ↔
      filenames ≠ [] ∧
      (∃ tm, d.parseFiles
        (tfiles.name d (multiFile (filenames.map (fun v => d.pathJoin p.contentDir (ename v)))))
        leftDelim rightDelim w.readFile
        (filenames.map (fun v => d.pathJoin p.contentDir (ename v))) = Except.ok tm) ∧
      ∀ v ∈ filenames, w.stat (d.pathJoin p.contentDir (ename v)) ≠ none) ∧
    ((Pool.RegisterString d p name content).err = none ↔
      ∃ t, d.parseString name content = Except.ok t) := by
  have hReg := register_facts d w p name leftDelim rightDelim
  have hMulti := registerMulti_facts d w p name leftDelim rightDelim filenames
  have hStr := registerString_facts d p name content
  refine ⟨?_, ?_, ?_, hStr.1⟩
  · intro r hr
    rcases hr with hr | hr | hr
    · subst hr
      exact hReg.2
    · subst hr
      exact hMulti.2
    · subst hr
      exact hStr.2
  · rw [hReg.1, parse_err_none_iff]
    simp [singleFile, tfiles.name, tfiles.filenames]
  · rw [hMulti.1, parse_err_none_iff]
    simp [multiFile, tfiles.filenames, Function.comp_def]

/-- `TestRegisterString`, `TestRegister` and `TestRegisterLayout`. -/
theorem register_tests :
    (Pool.RegisterString toyDeps (New "" false) "test" "<html></html>").pool.Len = 1 ∧
    (New "tpl" false : Pool String).Len = 0 ∧ (poolT0 false).Len = 1 ∧
    (Pool.RenderNoLayoutToString toyDeps (worldT0 "T0 template" (some 5) 11) (poolT0 false) "T0"
      ()).wr = "T0 template" ∧
    mapLen (Pool.RegisterLayout toyDeps worldSite worldSite (New "tpl" false) "alayout" "header"
      "footer" "" "").pool.layouts = 1 := by
  decide

end registration

/-! ## RegisterLayout -/

section registerLayout

variable {Plate Data : Type}

theorem register_err_pool (d : Deps Plate Data) (w : World) (p : Pool Plate)
    (name leftDelim rightDelim : String)
    (h : (Pool.Register d w p name leftDelim rightDelim).err ≠ none) :
    (Pool.Register d w p name leftDelim rightDelim).pool = p :=
  (register_facts d w p name leftDelim rightDelim).2.2.1 h

/-- C2, counterexample: with `header.tmpl.html` present and `footer.tmpl.html`
missing, `RegisterLayout("alayout", "header", "footer", "", "")` on an empty
pool returns an error and leaves the template `header` registered: the
templates map is not what it was before the call. -/
theorem registerLayout_footer_failure_registers_header :
    (Pool.RegisterLayout toyDeps worldNoFooter worldNoFooter (New "tpl" false) "alayout"
      "header" "footer" "" "").err = some (Err.external "open: no such file") ∧
    (New "tpl" false : Pool String).tmpls = [] ∧
    (Pool.RegisterLayout toyDeps worldNoFooter worldNoFooter (New "tpl" false) "alayout"
      "header" "footer" "" "").pool.tmpls =
      [("header",
        { name := "header", files := [{ filename := "tpl/header.tmpl.html", modTime := 5 }],
          plate := some "header template", parsedAt := 10, leftDelim := "",
          rightDelim := "" })] := by
  decide

/-- C2, amended: when `RegisterLayout` returns an error the layouts map is
exactly what it was before the call; when the header registration failed the
whole pool is what it was; when the header registered and the footer
registration failed, the pool is the prior pool with the header's parsed
template stored under `header` (nothing else changed). -/
theorem registerLayout_error_keeps_layouts (d : Deps Plate Data) (wh wf : World)
    (p : Pool Plate) (name header footer leftDelim rightDelim : String)
    (h : (Pool.RegisterLayout d wh wf p name header footer leftDelim rightDelim).err ≠ none) :
    (Pool.RegisterLayout d wh wf p name header footer leftDelim rightDelim).pool.layouts =
      p.layouts ∧
    ((Pool.Register d wh p header leftDelim rightDelim).err ≠ none →
      (Pool.RegisterLayout d wh wf p name header footer leftDelim rightDelim).pool = p) ∧
    ((Pool.Register d wh p header leftDelim rightDelim).err = none →
      (Pool.Register d wf (Pool.Register d wh p header leftDelim rightDelim).pool footer
        leftDelim rightDelim).err ≠ none ∧
      ∃ nt : tmpl Plate, nt.plate ≠ none ∧
        (Pool.RegisterLayout d wh wf p name header footer leftDelim rightDelim).pool =
          { p with tmpls := mapSet p.tmpls header nt }) := by
  have hH := register_facts d wh p header leftDelim rightDelim
  rcases hr1 : Pool.Register d wh p header leftDelim rightDelim with ⟨p1, e1⟩
  rw [hr1] at hH
  cases e1 with
  | some e1 =>
    have hp1 : p1 = p := by simpa using hH.2.2.1
    subst hp1
    simp [Pool.RegisterLayout, hr1]
  | none =>
    obtain ⟨nt, hnt, hp1, -⟩ := hH.2.1 rfl
    simp only at hp1
    have hF := register_facts d wf p1 footer leftDelim rightDelim
    rcases hr2 : Pool.Register d wf p1 footer leftDelim rightDelim with ⟨p2, e2⟩
    rw [hr2] at hF
    cases e2 with
    | none => simp [Pool.RegisterLayout, hr1, hr2] at h
    | some e2 =>
      have hp2 : p2 = p1 := by simpa using hF.2.2.1
      subst hp2
      simp only [Pool.RegisterLayout, hr1, hr2]
      refine ⟨by rw [hp1], by simp, fun _ => ⟨by simp, nt, hnt, hp1⟩⟩

/-- C2, the amended statement at the input of the counterexample. -/
theorem registerLayout_error_keeps_layouts_witness :
    (Pool.RegisterLayout toyDeps worldNoFooter worldNoFooter (New "tpl" false) "alayout"
      "header" "footer" "" "").err ≠ none ∧
    (Pool.RegisterLayout toyDeps worldNoFooter worldNoFooter (New "tpl" false) "alayout"
      "header" "footer" "" "").pool.layouts = (New "tpl" false : Pool String).layouts :=
  ⟨by decide,
   (registerLayout_error_keeps_layouts toyDeps worldNoFooter worldNoFooter (New "tpl" false)
      "alayout" "header" "footer" "" "" (by decide)).1⟩

end registerLayout

/-! ## parse and reloadTemplate on a registered template -/

section reload

variable {Plate Data : Type}

/-- C3, counterexample: `T0` was parsed at time 10 from the text `T0 template`;
at time 20 its file reads `T0 template updated` but cannot be stat'ed.
`reloadTemplate("T0")` returns an error, and the executable and `parsedAt`
of `T0` have been replaced all the same. -/
theorem reloadTemplate_stat_failure_replaces_executable :
    mapGet (poolT0 false).tmpls "T0" = some tmplT0 ∧
    (Pool.reloadTemplate toyDeps (worldT0 "T0 template updated" none 20) (poolT0 false)
      "T0").err = some (Err.external "tpl/T0.tmpl.html") ∧
    (tmpl.parse toyDeps (worldT0 "T0 template updated" none 20) tmplT0).2 =
      some (Err.external "tpl/T0.tmpl.html") ∧
    mapGet (Pool.reloadTemplate toyDeps (worldT0 "T0 template updated" none 20) (poolT0 false)
      "T0").pool.tmpls "T0" =
      some { tmplT0 with plate := some "T0 template updated", parsedAt := 20 } ∧
    tmplT0.plate = some "T0 template" ∧ tmplT0.parsedAt = 10 := by
  decide

/-- C3, amended: when `parse` fails because the template has no files or
because its files cannot be read or parsed, the record (executable,
`parsedAt`, files) is untouched; when the files parse, the executable becomes
the new parse and `parsedAt` the current time, and the call returns an error
exactly when one of the files cannot be stat'ed afterwards (the replacement
stays in that case); `reloadTemplate(name)` returns the error of `parse` and
leaves under `name` the record `parse` leaves. -/
theorem parse_replaces_iff_files_parse (d : Deps Plate Data) (w : World) (t : tmpl Plate) :
    ((t.files = [] ∨ ∃ e, d.parseFiles (tfiles.name d t.files) t.leftDelim t.rightDelim
        w.readFile (tfiles.filenames t.files) = Except.error e) →
      (tmpl.parse d w t).1 = t ∧ (tmpl.parse d w t).2 ≠ none) ∧
    (∀ tm, t.files ≠ [] →
      d.parseFiles (tfiles.name d t.files) t.leftDelim t.rightDelim w.readFile
        (tfiles.filenames t.files) = Except.ok tm →
      (tmpl.parse d w t).1.plate = some tm ∧ (tmpl.parse d w t).1.parsedAt = w.now ∧
      ((tmpl.parse d w t).2 = none ↔ ∀ v ∈ t.files, w.stat v.filename ≠ none)) ∧
    (∀ (p : Pool Plate) (name : String), mapGet p.tmpls name = some t →
      (Pool.reloadTemplate d w p name).err = (tmpl.parse d w t).2 ∧
      (Pool.reloadTemplate d w p name).pool.layouts = p.layouts ∧
      mapGet (Pool.reloadTemplate d w p name).pool.tmpls name = some (tmpl.parse d w t).1 ∧
      ∀ other, other ≠ name →
        mapGet (Pool.reloadTemplate d w p name).pool.tmpls other = mapGet p.tmpls other) := by
  refine ⟨?_, ?_, ?_⟩
  · intro h
    unfold tmpl.parse
    rcases h with h | ⟨e, h⟩
    · simp [h]
    · by_cases h0 : t.files.length = 0
      · simp [h0]
      · simp [h0, h]
  · intro tm hne hp
    have h0 : ¬ t.files.length = 0 := fun h => hne (List.length_eq_zero.mp h)
    refine ⟨?_, ?_, ?_⟩
    · simp [tmpl.parse, h0, hp]
    · simp [tmpl.parse, h0, hp]
    · rw [parse_err_none_iff]
      constructor
      · intro h
        exact h.2.2
      · intro h
        exact ⟨hne, ⟨tm, hp⟩, h⟩
  · intro p name hget
    simp only [Pool.reloadTemplate, hget]
    refine ⟨trivial, trivial, mapGet_mapSet_same _ _ _, ?_⟩
    intro other hne
    exact mapGet_mapSet_ne _ _ _ _ hne

end reload

/-! ## modifiedSince -/

theorem modifiedSince_append (w : World) (pre post : tfiles) (t : Time) :
    tfiles.modifiedSince w (pre ++ post) t =
      (tfiles.modifiedSince w pre t || tfiles.modifiedSince w post t) := by
  induction pre with
  | nil => simp [tfiles.modifiedSince]
  | cons v rest ih =>
    cases hs : w.stat v.filename with
    | none => simp [tfiles.modifiedSince, hs, ih]
    | some m =>
      by_cases hlt : t < m
      · simp [tfiles.modifiedSince, hs, hlt]
      · simp [tfiles.modifiedSince, hs, hlt, ih]

/-- C6: `modifiedSince(t)` is true exactly when some file of the set can be
stat'ed and its modification time is strictly after `t`; the call always
returns a boolean (there is no error result); a file that cannot be stat'ed
does not change the result, wherever it stands in the set; when no file can be
stat'ed the result is false; the result for the empty set is false. -/
theorem modifiedSince_iff_some_file_newer (w : World) (tf : tfiles) (t : Time) :
    (tfiles.modifiedSince w tf t = true ↔
      ∃ v ∈ tf, ∃ m, w.stat v.filename = some m ∧ t < m) ∧
    (∀ (pre post : tfiles) (v : tfile), tf = pre ++ v :: post → w.stat v.filename = none →
      tfiles.modifiedSince w tf t = tfiles.modifiedSince w (pre ++ post) t) ∧
    ((∀ v ∈ tf, w.stat v.filename = none) → tfiles.modifiedSince w tf t = false) ∧
    tfiles.modifiedSince w [] t = false := by
  refine ⟨modifiedSince_eq_true_iff w tf t, ?_, ?_, rfl⟩
  · intro pre post v htf hs
    subst htf
    rw [modifiedSince_append, modifiedSince_append]
    simp [tfiles.modifiedSince, hs]
  · intro h
    cases hm : tfiles.modifiedSince w tf t with
    | false => rfl
    | true =>
      obtain ⟨v, hv, m, hs, -⟩ := (modifiedSince_eq_true_iff w tf t).1 hm
      rw [h v hv] at hs
      cases hs

/-! ## One render step -/

section step

variable {Plate Data : Type}

theorem templateRun_notFound (d : Deps Plate Data) (w : World) (p : Pool Plate) (n : String)
    (data : Data) (wr : String) (h : mapGet p.tmpls n = none) :
    Pool.templateRun d w p n data wr =
      { pool := p, wr := wr, outcome := Outcome.error (Err.templateNotFound n) } := by
  simp [Pool.templateRun, h]

/-- A step on a registered name: the record it executes is the stored one,
after `checkReload` when the pool reloads; it is what the pool holds under the
name afterwards. -/
theorem templateRun_found (d : Deps Plate Data) (w : World) (p : Pool Plate) (n : String)
    (data : Data) (wr : String) (t : tmpl Plate) (h : mapGet p.tmpls n = some t) :
    (Pool.templateRun d w p n data wr).pool =
      (if p.reload then { p with tmpls := mapSet p.tmpls n (tmpl.checkReload d w t) } else p) ∧
    mapGet (Pool.templateRun d w p n data wr).pool.tmpls n =
      some (if p.reload then tmpl.checkReload d w t else t) ∧
    (((if p.reload then tmpl.checkReload d w t else t).plate = none ∧
        (Pool.templateRun d w p n data wr).wr = wr ∧
        (Pool.templateRun d w p n data wr).outcome = Outcome.panic) ∨
      ∃ pl, (if p.reload then tmpl.checkReload d w t else t).plate = some pl ∧
        (Pool.templateRun d w p n data wr).wr = wr ++ (d.execute pl data).1 ∧
        (Pool.templateRun d w p n data wr).outcome = Outcome.ofOption (d.execute pl data).2) := by
  cases hr : p.reload with
  | false =>
    cases hp : t.plate with
    | none => simp [Pool.templateRun, h, hr, hp]
    | some pl => simp [Pool.templateRun, h, hr, hp]
  | true =>
    cases hp : (tmpl.checkReload d w t).plate with
    | none => simp [Pool.templateRun, h, hr, hp, mapGet_mapSet_same]
    | some pl => simp [Pool.templateRun, h, hr, hp, mapGet_mapSet_same]

theorem templateRunInner_notFound (d : Deps Plate Data) (w : World) (p : Pool Plate)
    (n inner : String) (data : Data) (wr : String) (h : mapGet p.tmpls n = none) :
    Pool.templateRunInner d w p n inner data wr =
      { pool := p, wr := wr, outcome := Outcome.error (Err.templateNotFound n) } := by
  simp [Pool.templateRunInner, h]

theorem templateRunInner_found (d : Deps Plate Data) (w : World) (p : Pool Plate)
    (n inner : String) (data : Data) (wr : String) (t : tmpl Plate)
    (h : mapGet p.tmpls n = some t) :
    (Pool.templateRunInner d w p n inner data wr).pool =
      (if p.reload then { p with tmpls := mapSet p.tmpls n (tmpl.checkReload d w t) } else p) ∧
    mapGet (Pool.templateRunInner d w p n inner data wr).pool.tmpls n =
      some (if p.reload then tmpl.checkReload d w t else t) ∧
    (((if p.reload then tmpl.checkReload d w t else t).plate = none ∧
        (Pool.templateRunInner d w p n inner data wr).wr = wr ∧
        (Pool.templateRunInner d w p n inner data wr).outcome = Outcome.panic) ∨
      ∃ pl, (if p.reload then tmpl.checkReload d w t else t).plate = some pl ∧
        (Pool.templateRunInner d w p n inner data wr).wr =
          wr ++ (d.executeTemplate pl inner data).1 ∧
        (Pool.templateRunInner d w p n inner data wr).outcome =
          Outcome.ofOption (d.executeTemplate pl inner data).2) := by
  cases hr : p.reload with
  | false =>
    cases hp : t.plate with
    | none => simp [Pool.templateRunInner, h, hr, hp]
    | some pl => simp [Pool.templateRunInner, h, hr, hp]
  | true =>
    cases hp : (tmpl.checkReload d w t).plate with
    | none => simp [Pool.templateRunInner, h, hr, hp, mapGet_mapSet_same]
    | some pl => simp [Pool.templateRunInner, h, hr, hp, mapGet_mapSet_same]

theorem ofOption_eq_ok (e : Option Err) : Outcome.ofOption e = Outcome.ok ↔ e = none := by
  cases e <;> simp [Outcome.ofOption]

/-- A step that ends without error executed the record the pool holds under
the name afterwards, and appended that execution's output to the writer. -/
theorem templateRun_ok (d : Deps Plate Data) (w : World) (p : Pool Plate) (n : String)
    (data : Data) (wr : String)
    (hok : (Pool.templateRun d w p n data wr).outcome = Outcome.ok) :
    ∃ t pl, mapGet (Pool.templateRun d w p n data wr).pool.tmpls n = some t ∧
      t.plate = some pl ∧ (d.execute pl data).2 = none ∧
      (Pool.templateRun d w p n data wr).wr = wr ++ (d.execute pl data).1 := by
  cases hg : mapGet p.tmpls n with
  | none =>
    rw [templateRun_notFound d w p n data wr hg] at hok
    cases hok
  | some t =>
    obtain ⟨-, hget, hcase⟩ := templateRun_found d w p n data wr t hg
    rcases hcase with ⟨-, -, hpanic⟩ | ⟨pl, hpl, hwr, hout⟩
    · rw [hpanic] at hok
      cases hok
    · rw [hout, ofOption_eq_ok] at hok
      exact ⟨_, pl, hget, hpl, hok, hwr⟩

/-- The pool after a step and the way it ends do not depend on what the
writer already holds; the step only appends to the writer. -/
theorem templateRun_writer (d : Deps Plate Data) (w : World) (p : Pool Plate) (n : String)
    (data : Data) (wr : String) :
    Pool.templateRun d w p n data wr =
      { pool := (Pool.templateRun d w p n data "").pool,
        wr := wr ++ (Pool.templateRun d w p n data "").wr,
        outcome := (Pool.templateRun d w p n data "").outcome } := by
  unfold Pool.templateRun
  cases hg : mapGet p.tmpls n with
  | none => simp
  | some t =>
    simp only
    split <;> simp

theorem render_writer (d : Deps Plate Data) (w1 w2 w3 : World) (p : Pool Plate)
    (L name : String) (data : Data) (wr : String) :
    Pool.Render d w1 w2 w3 p L name data wr =
      { pool := (Pool.Render d w1 w2 w3 p L name data "").pool,
        wr := wr ++ (Pool.Render d w1 w2 w3 p L name data "").wr,
        outcome := (Pool.Render d w1 w2 w3 p L name data "").outcome } := by
  unfold Pool.Render
  cases hL : mapGet p.layouts L with
  | none => simp
  | some lout =>
    simp only
    rw [templateRun_writer d w1 p lout.header data wr]
    generalize Pool.templateRun d w1 p lout.header data "" = r1
    obtain ⟨P1, X1, O1⟩ := r1
    by_cases h1 : O1 = Outcome.ok
    · subst h1
      simp only [ne_eq, not_true_eq_false, if_false]
      rw [templateRun_writer d w2 P1 name data (wr ++ X1),
        templateRun_writer d w2 P1 name data X1]
      generalize Pool.templateRun d w2 P1 name data "" = r2
      obtain ⟨P2, X2, O2⟩ := r2
      by_cases h2 : O2 = Outcome.ok
      · subst h2
        simp only [ne_eq, not_true_eq_false, if_false]
        rw [templateRun_writer d w3 P2 lout.footer data (wr ++ X1 ++ X2),
          templateRun_writer d w3 P2 lout.footer data (X1 ++ X2)]
        simp [String.append_assoc]
      · simp [h2, String.append_assoc]
    · simp [h1]

theorem templateRun_pool_writer (d : Deps Plate Data) (w : World) (p : Pool Plate) (n : String)
    (data : Data) (wr : String) :
    (Pool.templateRun d w p n data wr).pool = (Pool.templateRun d w p n data "").pool := by
  rw [templateRun_writer d w p n data wr]

/-- The three steps of a `Render` that ends without error. -/
theorem render_ok_steps (d : Deps Plate Data) (w1 w2 w3 : World) (p : Pool Plate)
    (L name : String) (data : Data) (wr : String) (lout : layout)
    (hL : mapGet p.layouts L = some lout)
    (hok : (Pool.Render d w1 w2 w3 p L name data wr).outcome = Outcome.ok) :
    ∃ (th tb tf : tmpl Plate) (ph pb pf : Plate),
      mapGet (Pool.RenderNoLayout d w1 p lout.header data "").pool.tmpls lout.header =
        some th ∧ th.plate = some ph ∧
      mapGet (Pool.RenderNoLayout d w2 (Pool.RenderNoLayout d w1 p lout.header data "").pool
        name data "").pool.tmpls name = some tb ∧ tb.plate = some pb ∧
      mapGet (Pool.Render d w1 w2 w3 p L name data wr).pool.tmpls lout.footer = some tf ∧
      tf.plate = some pf ∧
      (d.execute ph data).2 = none ∧ (d.execute pb data).2 = none ∧
      (d.execute pf data).2 = none ∧
      (Pool.Render d w1 w2 w3 p L name data wr).wr =
        wr ++ (d.execute ph data).1 ++ (d.execute pb data).1 ++ (d.execute pf data).1 := by
  unfold Pool.RenderNoLayout
  unfold Pool.Render at hok ⊢
  simp only [hL] at hok ⊢
  by_cases h1 : (Pool.templateRun d w1 p lout.header data wr).outcome = Outcome.ok
  · obtain ⟨th, ph, hg1, hp1, he1, hw1⟩ := templateRun_ok d w1 p lout.header data wr h1
    simp only [h1, ne_eq, not_true_eq_false, if_false] at hok ⊢
    by_cases h2 : (Pool.templateRun d w2 (Pool.templateRun d w1 p lout.header data wr).pool name
        data (Pool.templateRun d w1 p lout.header data wr).wr).outcome = Outcome.ok
    · obtain ⟨tb, pb, hg2, hp2, he2, hw2⟩ := templateRun_ok d w2 _ name data _ h2
      simp only [h2, ne_eq, not_true_eq_false, if_false] at hok ⊢
      obtain ⟨tf, pf, hg3, hp3, he3, hw3⟩ := templateRun_ok d w3 _ lout.footer data _ hok
      refine ⟨th, tb, tf, ph, pb, pf, ?_, hp1, ?_, hp2, hg3, hp3, he1, he2, he3, ?_⟩
      · rw [← templateRun_pool_writer d w1 p lout.header data wr]
        exact hg1
      · rw [← templateRun_pool_writer d w1 p lout.header data wr,
          ← templateRun_pool_writer d w2 _ name data
            (Pool.templateRun d w1 p lout.header data wr).wr]
        exact hg2
      · rw [hw3, hw2, hw1]
    · simp [h2] at hok
  · simp [h1] at hok

/-- C4: when the layout `L = (header, footer)` is registered and `Render(L,
name, data, w)` ends without error (all three executions succeed), the writer
holds what it held before followed by the output of executing the header's
template, then the named template's, then the footer's, with nothing between
or around them; `RenderToString` returns that concatenation.  The templates
executed are the ones the pool holds under the three names at the time of each
step. -/
theorem render_writes_header_body_footer (d : Deps Plate Data) (w1 w2 w3 : World)
    (p : Pool Plate) (L name : String) (data : Data) (wr : String) (lout : layout)
    (hL : mapGet p.layouts L = some lout)
    (hok : (Pool.Render d w1 w2 w3 p L name data wr).outcome = Outcome.ok) :
    ∃ (th tb tf : tmpl Plate) (ph pb pf : Plate),
      mapGet (Pool.RenderNoLayout d w1 p lout.header data "").pool.tmpls lout.header =
        some th ∧ th.plate = some ph ∧
      mapGet (Pool.RenderNoLayout d w2 (Pool.RenderNoLayout d w1 p lout.header data "").pool
        name data "").pool.tmpls name = some tb ∧ tb.plate = some pb ∧
      mapGet (Pool.Render d w1 w2 w3 p L name data wr).pool.tmpls lout.footer = some tf ∧
      tf.plate = some pf ∧
      (d.execute ph data).2 = none ∧ (d.execute pb data).2 = none ∧
      (d.execute pf data).2 = none ∧
      (Pool.Render d w1 w2 w3 p L name data wr).wr =
        wr ++ (d.execute ph data).1 ++ (d.execute pb data).1 ++ (d.execute pf data).1 ∧
      (Pool.RenderToString d w1 w2 w3 p L name data).outcome = Outcome.ok ∧
      (Pool.RenderToString d w1 w2 w3 p L name data).wr =
        (d.execute ph data).1 ++ (d.execute pb data).1 ++ (d.execute pf data).1 := by
  have hw := render_writer d w1 w2 w3 p L name data wr
  have hok0 : (Pool.Render d w1 w2 w3 p L name data "").outcome = Outcome.ok := by
    rw [hw] at hok
    exact hok
  have hpool : (Pool.Render d w1 w2 w3 p L name data wr).pool =
      (Pool.Render d w1 w2 w3 p L name data "").pool := by
    rw [hw]
  obtain ⟨th, tb, tf, ph, pb, pf, hg1, hp1, hg2, hp2, hg3, hp3, he1, he2, he3, hwr⟩ :=
    render_ok_steps d w1 w2 w3 p L name data "" lout hL hok0
  refine ⟨th, tb, tf, ph, pb, pf, hg1, hp1, hg2, hp2, ?_, hp3, he1, he2, he3, ?_, ?_, ?_⟩
  · rw [hpool]
    exact hg3
  · rw [hw]
    simp only
    rw [hwr]
    simp [String.append_assoc]
  · simp [Pool.RenderToString, hok0]
  · simp only [Pool.RenderToString, hok0, ne_eq, not_true_eq_false, if_false]
    rw [hwr]
    simp

/-- C4 at the pool of `TestRenderLayout`. -/
theorem render_writes_header_body_footer_witness :
    mapGet (poolSite false).layouts "alayout" = some { header := "header", footer := "footer" } ∧
    (Pool.Render toyDeps worldSite worldSite worldSite (poolSite false) "alayout" "body" ()
      "").outcome = Outcome.ok ∧
    (Pool.RenderToString toyDeps worldSite worldSite worldSite (poolSite false) "alayout"
      "body" ()).wr = "header templatebody templatefooter template" ∧
    ∃ (th tb tf : tmpl String) (ph pb pf : String),
      mapGet (Pool.RenderNoLayout toyDeps worldSite (poolSite false) "header" () "").pool.tmpls
        "header" = some th ∧ th.plate = some ph ∧
      mapGet (Pool.RenderNoLayout toyDeps worldSite
        (Pool.RenderNoLayout toyDeps worldSite (poolSite false) "header" () "").pool
        "body" () "").pool.tmpls "body" = some tb ∧ tb.plate = some pb ∧
      mapGet (Pool.Render toyDeps worldSite worldSite worldSite (poolSite false) "alayout" "body"
        () "").pool.tmpls "footer" = some tf ∧
      tf.plate = some pf ∧
      (toyDeps.execute ph ()).2 = none ∧ (toyDeps.execute pb ()).2 = none ∧
      (toyDeps.execute pf ()).2 = none ∧
      (Pool.Render toyDeps worldSite worldSite worldSite (poolSite false) "alayout" "body" ()
        "").wr =
        "" ++ (toyDeps.execute ph ()).1 ++ (toyDeps.execute pb ()).1 ++
          (toyDeps.execute pf ()).1 ∧
      (Pool.RenderToString toyDeps worldSite worldSite worldSite (poolSite false) "alayout"
        "body" ()).outcome = Outcome.ok ∧
      (Pool.RenderToString toyDeps worldSite worldSite worldSite (poolSite false) "alayout"
        "body" ()).wr =
        (toyDeps.execute ph ()).1 ++ (toyDeps.execute pb ()).1 ++ (toyDeps.execute pf ()).1 :=
  ⟨by decide, by decide, by decide,
    render_writes_header_body_footer toyDeps worldSite worldSite worldSite (poolSite false)
      "alayout" "body" () "" { header := "header", footer := "footer" } (by decide) (by decide)⟩

end step

/-! ## Failing renders -/

section failing

variable {Plate Data : Type}

theorem templateRun_appends (d : Deps Plate Data) (w : World) (p : Pool Plate) (n : String)
    (data : Data) (wr : String) :
    ∃ o, (Pool.templateRun d w p n data wr).wr = wr ++ o ∧
      (mapGet p.tmpls n = none → o = "" ∧
        (Pool.templateRun d w p n data wr).outcome = Outcome.error (Err.templateNotFound n)) := by
  refine ⟨(Pool.templateRun d w p n data "").wr, ?_, ?_⟩
  · rw [templateRun_writer d w p n data wr]
  · intro h
    rw [templateRun_notFound d w p n data "" h, templateRun_notFound d w p n data wr h]
    exact ⟨rfl, rfl⟩

theorem templateRunInner_appends (d : Deps Plate Data) (w : World) (p : Pool Plate)
    (n inner : String) (data : Data) (wr : String) :
    ∃ o, (Pool.templateRunInner d w p n inner data wr).wr = wr ++ o ∧
      (mapGet p.tmpls n = none → o = "" ∧
        (Pool.templateRunInner d w p n inner data wr).outcome =
          Outcome.error (Err.templateNotFound n)) := by
  cases hg : mapGet p.tmpls n with
  | none =>
    refine ⟨"", ?_, fun _ => ⟨rfl, ?_⟩⟩
    · rw [templateRunInner_notFound d w p n inner data wr hg]
      simp
    · rw [templateRunInner_notFound d w p n inner data wr hg]
  | some t =>
    obtain ⟨-, -, hcase⟩ := templateRunInner_found d w p n inner data wr t hg
    rcases hcase with ⟨-, hwr, -⟩ | ⟨pl, -, hwr, -⟩
    · exact ⟨"", by simp [hwr], fun h => by cases h⟩
    · exact ⟨_, hwr, fun h => by cases h⟩

/-- C5, counterexample: the header of `alayout` faults after writing
`partial`.  `Render` returns the header's error: the header is the first step
and it fails, so no step preceded the failure, yet the writer holds
`partial`, not the empty output of the preceding steps. -/
theorem render_failing_step_output_stays :
    mapGet poolFaultyHeader.layouts "alayout" = some { header := "header", footer := "footer" } ∧
    (Pool.templateRun toyDeps worldFaultyHeader poolFaultyHeader "header" () "").outcome =
      Outcome.error (Err.external "nil pointer evaluating") ∧
    (Pool.Render toyDeps worldFaultyHeader worldFaultyHeader worldFaultyHeader poolFaultyHeader
      "alayout" "body" () "").outcome = Outcome.error (Err.external "nil pointer evaluating") ∧
    (Pool.Render toyDeps worldFaultyHeader worldFaultyHeader worldFaultyHeader poolFaultyHeader
      "alayout" "body" () "").wr = "partial" := by
  decide

/-- C5, amended: `Render` and `RenderMulti` return a layout-not-found error,
the writer and the pool untouched, when the layout is not registered (and
`RenderToString` the empty string with that error).  Otherwise they run the
header step, the body step and the footer step in that order and return the
result of the first step that does not end well, without running a later one.
Every step only appends to the writer: what is written is the output of the
steps before the failure followed by what the failing step itself wrote
before it failed, which is nothing when its template is not registered.
`RenderToString` returns the empty string with the error of `Render`. -/
theorem render_returns_first_failure (d : Deps Plate Data) (w1 w2 w3 : World) (p : Pool Plate)
    (L name inner : String) (data : Data) (wr : String) :
    (mapGet p.layouts L = none →
      Pool.Render d w1 w2 w3 p L name data wr =
        { pool := p, wr := wr, outcome := Outcome.error (Err.layoutNotFound L) } ∧
      Pool.RenderMulti d w1 w2 w3 p L name inner data wr =
        { pool := p, wr := wr, outcome := Outcome.error (Err.layoutNotFound L) } ∧
      Pool.RenderToString d w1 w2 w3 p L name data =
        { pool := p, wr := "", outcome := Outcome.error (Err.layoutNotFound L) }) ∧
    (∀ (lout : layout) (r1 r2 m2 r3 m3 : RunResult Plate),
      mapGet p.layouts L = some lout →
      r1 = Pool.templateRun d w1 p lout.header data wr →
      r2 = Pool.templateRun d w2 r1.pool name data r1.wr →
      r3 = Pool.templateRun d w3 r2.pool lout.footer data r2.wr →
      m2 = Pool.templateRunInner d w2 r1.pool name inner data r1.wr →
      m3 = Pool.templateRun d w3 m2.pool lout.footer data m2.wr →
      Pool.Render d w1 w2 w3 p L name data wr =
        (if r1.outcome ≠ Outcome.ok then r1 else if r2.outcome ≠ Outcome.ok then r2 else r3) ∧
      Pool.RenderMulti d w1 w2 w3 p L name inner data wr =
        (if r1.outcome ≠ Outcome.ok then r1 else if m2.outcome ≠ Outcome.ok then m2 else m3) ∧
      (∃ o1 o2 o3 : String,
        r1.wr = wr ++ o1 ∧ r2.wr = wr ++ o1 ++ o2 ∧ r3.wr = wr ++ o1 ++ o2 ++ o3 ∧
        (mapGet p.tmpls lout.header = none →
          o1 = "" ∧ r1.outcome = Outcome.error (Err.templateNotFound lout.header)) ∧
        (mapGet r1.pool.tmpls name = none →
          o2 = "" ∧ r2.outcome = Outcome.error (Err.templateNotFound name)) ∧
        (mapGet r2.pool.tmpls lout.footer = none →
          o3 = "" ∧ r3.outcome = Outcome.error (Err.templateNotFound lout.footer))) ∧
      (∃ o1 o2 o3 : String,
        r1.wr = wr ++ o1 ∧ m2.wr = wr ++ o1 ++ o2 ∧ m3.wr = wr ++ o1 ++ o2 ++ o3 ∧
        (mapGet r1.pool.tmpls name = none →
          o2 = "" ∧ m2.outcome = Outcome.error (Err.templateNotFound name)) ∧
        (mapGet m2.pool.tmpls lout.footer = none →
          o3 = "" ∧ m3.outcome = Outcome.error (Err.templateNotFound lout.footer)))) ∧
    ((Pool.RenderToString d w1 w2 w3 p L name data).outcome =
        (Pool.Render d w1 w2 w3 p L name data "").outcome ∧
      ((Pool.Render d w1 w2 w3 p L name data "").outcome ≠ Outcome.ok →
        (Pool.RenderToString d w1 w2 w3 p L name data).wr = "")) := by
  refine ⟨?_, ?_, ?_⟩
  · intro hL
    simp [Pool.Render, Pool.RenderMulti, Pool.RenderToString, hL]
  · intro lout r1 r2 m2 r3 m3 hL h1 h2 h3 hm2 hm3
    obtain ⟨o1, ho1, hn1⟩ := templateRun_appends d w1 p lout.header data wr
    obtain ⟨o2, ho2, hn2⟩ := templateRun_appends d w2 r1.pool name data r1.wr
    obtain ⟨o3, ho3, hn3⟩ := templateRun_appends d w3 r2.pool lout.footer data r2.wr
    obtain ⟨q2, hq2, hnq2⟩ := templateRunInner_appends d w2 r1.pool name inner data r1.wr
    obtain ⟨q3, hq3, hnq3⟩ := templateRun_appends d w3 m2.pool lout.footer data m2.wr
    rw [← h1] at ho1 hn1
    rw [← h2] at ho2 hn2
    rw [← h3] at ho3 hn3
    rw [← hm2] at hq2 hnq2
    rw [← hm3] at hq3 hnq3
    refine ⟨?_, ?_, ⟨o1, o2, o3, ho1, ?_, ?_, hn1, hn2, hn3⟩,
      ⟨o1, q2, q3, ho1, ?_, ?_, hnq2, hnq3⟩⟩
    · subst h1 h2 h3
      simp only [Pool.Render, hL]
    · subst h1 hm2 hm3
      simp only [Pool.RenderMulti, hL]
    · rw [ho2, ho1]
    · rw [ho3, ho2, ho1]
    · rw [hq2, ho1]
    · rw [hq3, hq2, ho1]
  · constructor
    · unfold Pool.RenderToString
      simp only
      split <;> rfl
    · intro h
      simp [Pool.RenderToString, h]

end failing

/-! ## Rendering without reload -/

section noreload

variable {Plate Data : Type}

theorem templateRun_noreload (d : Deps Plate Data) (w w' : World) (p : Pool Plate) (n : String)
    (data : Data) (wr : String) (h : p.reload = false) :
    (Pool.templateRun d w p n data wr).pool = p ∧
    Pool.templateRun d w p n data wr = Pool.templateRun d w' p n data wr := by
  unfold Pool.templateRun
  cases hg : mapGet p.tmpls n with
  | none => simp
  | some t =>
    simp only [h]
    cases hp : t.plate <;> simp [hp]

theorem templateRunInner_noreload (d : Deps Plate Data) (w w' : World) (p : Pool Plate)
    (n inner : String) (data : Data) (wr : String) (h : p.reload = false) :
    (Pool.templateRunInner d w p n inner data wr).pool = p ∧
    Pool.templateRunInner d w p n inner data wr =
      Pool.templateRunInner d w' p n inner data wr := by
  unfold Pool.templateRunInner
  cases hg : mapGet p.tmpls n with
  | none => simp
  | some t =>
    simp only [h]
    cases hp : t.plate <;> simp [hp]

theorem render_noreload (d : Deps Plate Data) (w1 w2 w3 w1' w2' w3' : World) (p : Pool Plate)
    (L name : String) (data : Data) (wr : String) (h : p.reload = false) :
    (Pool.Render d w1 w2 w3 p L name data wr).pool = p ∧
    Pool.Render d w1 w2 w3 p L name data wr = Pool.Render d w1' w2' w3' p L name data wr := by
  unfold Pool.Render
  cases hL : mapGet p.layouts L with
  | none => simp
  | some lout =>
    simp only
    rw [(templateRun_noreload d w1 w1' p lout.header data wr h).2]
    have hp1 := (templateRun_noreload d w1' w1' p lout.header data wr h).1
    by_cases h1 : (Pool.templateRun d w1' p lout.header data wr).outcome = Outcome.ok
    · simp only [h1, ne_eq, not_true_eq_false, if_false, hp1]
      rw [(templateRun_noreload d w2 w2' p name data _ h).2]
      have hp2 := (templateRun_noreload d w2' w2' p name data
        (Pool.templateRun d w1' p lout.header data wr).wr h).1
      by_cases h2 : (Pool.templateRun d w2' p name data
          (Pool.templateRun d w1' p lout.header data wr).wr).outcome = Outcome.ok
      · simp only [h2, ne_eq, not_true_eq_false, if_false, hp2]
        rw [(templateRun_noreload d w3 w3' p lout.footer data _ h).2]
        exact ⟨(templateRun_noreload d w3' w3' p lout.footer data _ h).1, rfl⟩
      · simp only [h2, ne_eq, not_false_eq_true, if_true]
        exact ⟨hp2, trivial⟩
    · simp only [h1, ne_eq, not_false_eq_true, if_true]
      exact ⟨hp1, trivial⟩

theorem renderMulti_noreload (d : Deps Plate Data) (w1 w2 w3 w1' w2' w3' : World)
    (p : Pool Plate) (L name inner : String) (data : Data) (wr : String)
    (h : p.reload = false) :
    (Pool.RenderMulti d w1 w2 w3 p L name inner data wr).pool = p ∧
    Pool.RenderMulti d w1 w2 w3 p L name inner data wr =
      Pool.RenderMulti d w1' w2' w3' p L name inner data wr := by
  unfold Pool.RenderMulti
  cases hL : mapGet p.layouts L with
  | none => simp
  | some lout =>
    simp only
    rw [(templateRun_noreload d w1 w1' p lout.header data wr h).2]
    have hp1 := (templateRun_noreload d w1' w1' p lout.header data wr h).1
    by_cases h1 : (Pool.templateRun d w1' p lout.header data wr).outcome = Outcome.ok
    · simp only [h1, ne_eq, not_true_eq_false, if_false, hp1]
      rw [(templateRunInner_noreload d w2 w2' p name inner data _ h).2]
      have hp2 := (templateRunInner_noreload d w2' w2' p name inner data
        (Pool.templateRun d w1' p lout.header data wr).wr h).1
      by_cases h2 : (Pool.templateRunInner d w2' p name inner data
          (Pool.templateRun d w1' p lout.header data wr).wr).outcome = Outcome.ok
      · simp only [h2, ne_eq, not_true_eq_false, if_false, hp2]
        rw [(templateRun_noreload d w3 w3' p lout.footer data _ h).2]
        exact ⟨(templateRun_noreload d w3' w3' p lout.footer data _ h).1, rfl⟩
      · simp only [h2, ne_eq, not_false_eq_true, if_true]
        exact ⟨hp2, trivial⟩
    · simp only [h1, ne_eq, not_false_eq_true, if_true]
      exact ⟨hp1, trivial⟩

/-- C8: in a pool constructed with reload disabled, `Render`, `RenderMulti`,
`RenderNoLayout`, `RenderToString` and `RenderNoLayoutToString` leave the pool
exactly as it was (every template's executable and `parsedAt`, the maps, the
flags), whatever the state of the filesystem and of the clock; and their
whole result (output written, error) is the same in any two such states, so
that a render after a backing file is rewritten yields what it yielded
before. -/
theorem render_without_reload_is_pure (d : Deps Plate Data) (w1 w2 w3 w1' w2' w3' : World)
    (p : Pool Plate) (L name inner : String) (data : Data) (wr : String)
    (h : p.reload = false) :
    ((Pool.Render d w1 w2 w3 p L name data wr).pool = p ∧
      (Pool.RenderMulti d w1 w2 w3 p L name inner data wr).pool = p ∧
      (Pool.RenderNoLayout d w1 p name data wr).pool = p ∧
      (Pool.RenderToString d w1 w2 w3 p L name data).pool = p ∧
      (Pool.RenderNoLayoutToString d w1 p name data).pool = p) ∧
    (Pool.Render d w1 w2 w3 p L name data wr = Pool.Render d w1' w2' w3' p L name data wr ∧
      Pool.RenderMulti d w1 w2 w3 p L name inner data wr =
        Pool.RenderMulti d w1' w2' w3' p L name inner data wr ∧
      Pool.RenderNoLayout d w1 p name data wr = Pool.RenderNoLayout d w1' p name data wr ∧
      Pool.RenderToString d w1 w2 w3 p L name data =
        Pool.RenderToString d w1' w2' w3' p L name data ∧
      Pool.RenderNoLayoutToString d w1 p name data =
        Pool.RenderNoLayoutToString d w1' p name data) := by
  have hR := render_noreload d w1 w2 w3 w1' w2' w3' p L name data wr h
  have hR0 := render_noreload d w1 w2 w3 w1' w2' w3' p L name data "" h
  have hM := renderMulti_noreload d w1 w2 w3 w1' w2' w3' p L name inner data wr h
  have hT := templateRun_noreload d w1 w1' p name data wr h
  have hT0 := templateRun_noreload d w1 w1' p name data "" h
  refine ⟨⟨hR.1, hM.1, hT.1, ?_, ?_⟩, ⟨hR.2, hM.2, hT.2, ?_, ?_⟩⟩
  · unfold Pool.RenderToString
    simp only
    split
    · exact hR0.1
    · exact hR0.1
  · unfold Pool.RenderNoLayoutToString Pool.RenderNoLayout
    simp only
    split
    · exact hT0.1
    · exact hT0.1
  · unfold Pool.RenderToString
    rw [hR0.2]
  · unfold Pool.RenderNoLayoutToString Pool.RenderNoLayout
    rw [hT0.2]

/-- C8 at the pool of `TestAutoReloadOff`: the render before the rewrite of
`T0.tmpl.html` and the render after it return the same string. -/
theorem render_without_reload_is_pure_witness :
    (poolT0 false).reload = false ∧
    (Pool.RenderNoLayoutToString toyDeps (worldT0 "T0 template" (some 5) 11) (poolT0 false) "T0"
      ()).wr = "T0 template" ∧
    Pool.RenderNoLayoutToString toyDeps (worldT0 "T0 template" (some 5) 11) (poolT0 false) "T0"
      () =
    Pool.RenderNoLayoutToString toyDeps (worldT0 "T0 template updated" (some 30) 31)
      (poolT0 false) "T0" () :=
  ⟨by decide, by decide,
    (render_without_reload_is_pure toyDeps (worldT0 "T0 template" (some 5) 11) worldSite
      worldSite (worldT0 "T0 template updated" (some 30) 31) worldSite worldSite (poolT0 false)
      "alayout" "T0" "" () "" (by decide)).2.2.2.2.2⟩

end noreload

/-! ## Rendering with reload -/

section autoreload

variable {Plate Data : Type}

/-- A step changes neither the flags nor the layouts of the pool, nor what it
holds under another name. -/
theorem templateRun_frame (d : Deps Plate Data) (w : World) (p : Pool Plate) (n : String)
    (data : Data) (wr : String) :
    (Pool.templateRun d w p n data wr).pool.reload = p.reload ∧
    (Pool.templateRun d w p n data wr).pool.layouts = p.layouts ∧
    ∀ other, other ≠ n →
      mapGet (Pool.templateRun d w p n data wr).pool.tmpls other = mapGet p.tmpls other := by
  cases hg : mapGet p.tmpls n with
  | none =>
    rw [templateRun_notFound d w p n data wr hg]
    simp
  | some t =>
    obtain ⟨hpool, -, -⟩ := templateRun_found d w p n data wr t hg
    rw [hpool]
    cases hr : p.reload with
    | false => simp [hr]
    | true =>
      refine ⟨by simp [hr], by simp, ?_⟩
      intro other hne
      simp only [if_true]
      exact mapGet_mapSet_ne _ _ _ _ hne

/-- The step on a template whose files changed after `parsedAt` and parse. -/
theorem templateRun_reloads (d : Deps Plate Data) (w : World) (p : Pool Plate) (name : String)
    (data : Data) (wr : String) (t : tmpl Plate) (tm : Plate)
    (hreload : p.reload = true)
    (hget : mapGet p.tmpls name = some t)
    (hfiles : t.files ≠ [])
    (hnew : ∃ v ∈ t.files, ∃ m, w.stat v.filename = some m ∧ t.parsedAt < m)
    (hparse : d.parseFiles (tfiles.name d t.files) t.leftDelim t.rightDelim w.readFile
      (tfiles.filenames t.files) = Except.ok tm) :
    (Pool.templateRun d w p name data wr).wr = wr ++ (d.execute tm data).1 ∧
    (Pool.templateRun d w p name data wr).outcome = Outcome.ofOption (d.execute tm data).2 ∧
    ∃ t', mapGet (Pool.templateRun d w p name data wr).pool.tmpls name = some t' ∧
      t'.plate = some tm ∧ t'.parsedAt = w.now := by
  have h0 : ¬ t.files.length = 0 := fun h => hfiles (List.length_eq_zero.mp h)
  have hmod : tfiles.modifiedSince w t.files t.parsedAt = true :=
    (modifiedSince_eq_true_iff w t.files t.parsedAt).2 hnew
  have hcr : tmpl.checkReload d w t =
      { t with plate := some tm, parsedAt := w.now, files := (tfiles.setModTimes w t.files).1 } := by
    simp [tmpl.checkReload, tmpl.parse, h0, hmod, hparse]
  obtain ⟨-, hg, hcase⟩ := templateRun_found d w p name data wr t hget
  simp only [hreload, if_true, hcr] at hg hcase
  rcases hcase with ⟨hnone, -, -⟩ | ⟨pl, hpl, hwr, hout⟩
  · cases hnone
  · have : pl = tm := by
      simp only [Option.some.injEq] at hpl
      exact hpl.symm
    subst this
    exact ⟨hwr, hout, _, hg, rfl, rfl⟩

/-- C7: in a pool constructed with reload enabled, let `name` be registered
from backing files, let one of the files have a modification time strictly
after the template's `parsedAt`, and let the files now parse, to `tm`.  Then
the next render of the template writes the output of executing `tm`, the
parse of the new content: `RenderNoLayout` appends exactly that output, and
so does the step of `Render` that runs the template as header, as body or as
footer; the pool afterwards holds `tm` under `name`, parsed at the current
time. -/
theorem render_after_rewrite_uses_new_content (d : Deps Plate Data) (w : World)
    (p : Pool Plate) (name : String) (data : Data) (wr : String) (t : tmpl Plate) (tm : Plate)
    (hreload : p.reload = true)
    (hget : mapGet p.tmpls name = some t)
    (hfiles : t.files ≠ [])
    (hnew : ∃ v ∈ t.files, ∃ m, w.stat v.filename = some m ∧ t.parsedAt < m)
    (hparse : d.parseFiles (tfiles.name d t.files) t.leftDelim t.rightDelim w.readFile
      (tfiles.filenames t.files) = Except.ok tm) :
    ((Pool.RenderNoLayout d w p name data wr).wr = wr ++ (d.execute tm data).1 ∧
      (Pool.RenderNoLayout d w p name data wr).outcome = Outcome.ofOption (d.execute tm data).2 ∧
      ∃ t', mapGet (Pool.RenderNoLayout d w p name data wr).pool.tmpls name = some t' ∧
        t'.plate = some tm ∧ t'.parsedAt = w.now) ∧
    (∀ (L body : String) (lout : layout) (w2 w3 : World),
      mapGet p.layouts L = some lout → lout.header = name →
      ∃ rest, (Pool.Render d w w2 w3 p L body data wr).wr =
        wr ++ (d.execute tm data).1 ++ rest) ∧
    (∀ (L : String) (lout : layout) (w1 w3 : World),
      mapGet p.layouts L = some lout → lout.header ≠ name →
      (Pool.templateRun d w1 p lout.header data wr).outcome = Outcome.ok →
      ∃ rest, (Pool.Render d w1 w w3 p L name data wr).wr =
        (Pool.templateRun d w1 p lout.header data wr).wr ++ (d.execute tm data).1 ++ rest) ∧
    (∀ (L body : String) (lout : layout) (w1 w2 : World),
      mapGet p.layouts L = some lout → lout.footer = name → lout.header ≠ name → body ≠ name →
      (Pool.templateRun d w1 p lout.header data wr).outcome = Outcome.ok →
      (Pool.templateRun d w2 (Pool.templateRun d w1 p lout.header data wr).pool body data
        (Pool.templateRun d w1 p lout.header data wr).wr).outcome = Outcome.ok →
      (Pool.Render d w1 w2 w p L body data wr).wr =
        (Pool.templateRun d w2 (Pool.templateRun d w1 p lout.header data wr).pool body data
          (Pool.templateRun d w1 p lout.header data wr).wr).wr ++ (d.execute tm data).1) := by
  refine ⟨templateRun_reloads d w p name data wr t tm hreload hget hfiles hnew hparse, ?_, ?_, ?_⟩
  · intro L body lout w2 w3 hL hh
    subst hh
    have hstep := templateRun_reloads d w p lout.header data wr t tm hreload hget hfiles hnew
      hparse
    unfold Pool.Render
    simp only [hL]
    by_cases h1 : (Pool.templateRun d w p lout.header data wr).outcome = Outcome.ok
    · simp only [h1, ne_eq, not_true_eq_false, if_false]
      by_cases h2 : (Pool.templateRun d w2 (Pool.templateRun d w p lout.header data wr).pool body
          data (Pool.templateRun d w p lout.header data wr).wr).outcome = Outcome.ok
      · simp only [h2, ne_eq, not_true_eq_false, if_false]
        obtain ⟨o2, ho2, -⟩ := templateRun_appends d w2
          (Pool.templateRun d w p lout.header data wr).pool body data
          (Pool.templateRun d w p lout.header data wr).wr
        obtain ⟨o3, ho3, -⟩ := templateRun_appends d w3
          (Pool.templateRun d w2 (Pool.templateRun d w p lout.header data wr).pool body data
            (Pool.templateRun d w p lout.header data wr).wr).pool lout.footer data
          (Pool.templateRun d w2 (Pool.templateRun d w p lout.header data wr).pool body data
            (Pool.templateRun d w p lout.header data wr).wr).wr
        refine ⟨o2 ++ o3, ?_⟩
        rw [ho3, ho2, hstep.1]
        simp [String.append_assoc]
      · simp only [h2, ne_eq, not_false_eq_true, if_true]
        obtain ⟨o2, ho2, -⟩ := templateRun_appends d w2
          (Pool.templateRun d w p lout.header data wr).pool body data
          (Pool.templateRun d w p lout.header data wr).wr
        exact ⟨o2, by rw [ho2, hstep.1]⟩
    · simp only [h1, ne_eq, not_false_eq_true, if_true]
      exact ⟨"", by rw [hstep.1]; simp⟩
  · intro L lout w1 w3 hL hne h1
    obtain ⟨hfr, -, hother⟩ := templateRun_frame d w1 p lout.header data wr
    have hget1 := (hother name (Ne.symm hne)).trans hget
    have hstep := templateRun_reloads d w (Pool.templateRun d w1 p lout.header data wr).pool name
      data (Pool.templateRun d w1 p lout.header data wr).wr t tm (hfr.trans hreload) hget1
      hfiles hnew hparse
    unfold Pool.Render
    simp only [hL, h1, ne_eq, not_true_eq_false, if_false]
    by_cases h2 : (Pool.templateRun d w (Pool.templateRun d w1 p lout.header data wr).pool name
        data (Pool.templateRun d w1 p lout.header data wr).wr).outcome = Outcome.ok
    · simp only [h2, ne_eq, not_true_eq_false, if_false]
      obtain ⟨o3, ho3, -⟩ := templateRun_appends d w3
        (Pool.templateRun d w (Pool.templateRun d w1 p lout.header data wr).pool name data
          (Pool.templateRun d w1 p lout.header data wr).wr).pool lout.footer data
        (Pool.templateRun d w (Pool.templateRun d w1 p lout.header data wr).pool name data
          (Pool.templateRun d w1 p lout.header data wr).wr).wr
      exact ⟨o3, by rw [ho3, hstep.1]⟩
    · simp only [h2, ne_eq, not_false_eq_true, if_true]
      exact ⟨"", by rw [hstep.1]; simp⟩
  · intro L body lout w1 w2 hL hf hneh hneb h1 h2
    subst hf
    obtain ⟨hfr1, -, hother1⟩ := templateRun_frame d w1 p lout.header data wr
    obtain ⟨hfr2, -, hother2⟩ := templateRun_frame d w2
      (Pool.templateRun d w1 p lout.header data wr).pool body data
      (Pool.templateRun d w1 p lout.header data wr).wr
    have hget2 := ((hother2 lout.footer (Ne.symm hneb)).trans
      (hother1 lout.footer (Ne.symm hneh))).trans hget
    have hstep := templateRun_reloads d w
      (Pool.templateRun d w2 (Pool.templateRun d w1 p lout.header data wr).pool body data
        (Pool.templateRun d w1 p lout.header data wr).wr).pool lout.footer data
      (Pool.templateRun d w2 (Pool.templateRun d w1 p lout.header data wr).pool body data
        (Pool.templateRun d w1 p lout.header data wr).wr).wr t tm
      ((hfr2.trans hfr1).trans hreload) hget2 hfiles hnew hparse
    unfold Pool.Render
    simp only [hL, h1, h2, ne_eq, not_true_eq_false, if_false]
    exact hstep.1

/-- C7 at the pool of `TestAutoReload`: `T0` was parsed at time 10, its file
is rewritten at time 12, and the render at time 13 returns the new text. -/
theorem render_after_rewrite_uses_new_content_witness :
    (poolT0 true).reload = true ∧
    mapGet (poolT0 true).tmpls "T0" = some tmplT0 ∧
    (Pool.RenderNoLayoutToString toyDeps (worldT0 "T0 template" (some 5) 11) (poolT0 true) "T0"
      ()).wr = "T0 template" ∧
    (Pool.RenderNoLayoutToString toyDeps (worldT0 "T0 template updated" (some 12) 13)
      (poolT0 true) "T0" ()).wr = "T0 template updated" ∧
    (Pool.RenderNoLayout toyDeps (worldT0 "T0 template updated" (some 12) 13) (poolT0 true) "T0"
      () "").wr = "" ++ (toyDeps.execute "T0 template updated" ()).1 :=
  ⟨by decide, by decide, by decide, by decide,
    (render_after_rewrite_uses_new_content toyDeps (worldT0 "T0 template updated" (some 12) 13)
      (poolT0 true) "T0" () "" tmplT0 "T0 template updated" (by decide) (by decide) (by decide)
      ⟨{ filename := "tpl/T0.tmpl.html", modTime := 5 }, by decide, 12, by decide, by decide⟩
      rfl).1.1⟩

end autoreload

/-! ## checkReload twice -/

theorem modifiedSince_setModTimes (w w' : World) (tf : tfiles) (t : Time) :
    tfiles.modifiedSince w (tfiles.setModTimes w' tf).1 t = tfiles.modifiedSince w tf t := by
  induction tf with
  | nil => simp [tfiles.setModTimes]
  | cons v rest ih =>
    cases hs' : w'.stat v.filename with
    | none => simp [tfiles.setModTimes, hs']
    | some m' =>
      simp only [tfiles.setModTimes, hs', tfiles.modifiedSince, ih]

theorem setModTimes_ne_nil (w : World) (tf : tfiles) (h : tf ≠ []) :
    (tfiles.setModTimes w tf).1 ≠ [] := by
  cases tf with
  | nil => exact absurd rfl h
  | cons v rest =>
    cases hs : w.stat v.filename <;> simp [tfiles.setModTimes, hs]

theorem modifiedSince_world (w w' : World) (tf : tfiles) (t : Time) (h : w'.stat = w.stat) :
    tfiles.modifiedSince w' tf t = tfiles.modifiedSince w tf t := by
  induction tf with
  | nil => simp [tfiles.modifiedSince]
  | cons v rest ih => simp only [tfiles.modifiedSince, h, ih]

section twice

variable {Plate Data : Type}

/-- C9, the code at the failing input: the file of `T0` carries the
modification time 100 while the clock reads 20 and then 30, and it is not
touched between the two calls.  The first `checkReload` parses (`parsedAt`
becomes 20), and the second parses again (`parsedAt` becomes 30): the file is
compared with `parsedAt`, the reading of the clock, and not with the
`modTime` that `setModTimes` recorded (100, equal to what `Stat` still
returns).  The same happens through two renders of a pool that reloads, the
`before` and `after` of `TestAutoReload`. -/
theorem checkReload_future_mtime_reparses :
    (worldT0 "T0 template updated" (some 100) 30).stat =
      (worldT0 "T0 template updated" (some 100) 20).stat ∧
    (worldT0 "T0 template updated" (some 100) 30).readFile =
      (worldT0 "T0 template updated" (some 100) 20).readFile ∧
    tmpl.checkReload toyDeps (worldT0 "T0 template updated" (some 100) 20) tmplT0 =
      { tmplT0 with plate := some "T0 template updated", parsedAt := 20,
                    files := [{ filename := "tpl/T0.tmpl.html", modTime := 100 }] } ∧
    tmpl.checkReload toyDeps (worldT0 "T0 template updated" (some 100) 30)
      (tmpl.checkReload toyDeps (worldT0 "T0 template updated" (some 100) 20) tmplT0) =
      { tmplT0 with plate := some "T0 template updated", parsedAt := 30,
                    files := [{ filename := "tpl/T0.tmpl.html", modTime := 100 }] } ∧
    (mapGet (Pool.RenderNoLayoutToString toyDeps (worldT0 "T0 template updated" (some 100) 20)
      (poolT0 true) "T0" ()).pool.tmpls "T0").map (fun t => t.parsedAt) = some 20 ∧
    (mapGet (Pool.RenderNoLayoutToString toyDeps (worldT0 "T0 template updated" (some 100) 30)
      (Pool.RenderNoLayoutToString toyDeps (worldT0 "T0 template updated" (some 100) 20)
        (poolT0 true) "T0" ()).pool "T0" ()).pool.tmpls "T0").map (fun t => t.parsedAt) =
      some 30 :=
  ⟨rfl, rfl, by decide, by decide, by decide, by decide⟩

/-- Where the second check is a no-op: when no backing file has a modification
time after the clock reading of the first call, two calls of `checkReload` in
a row with the backing files untouched in between leave the template after
the second call exactly as it was after the first; and unless the first call
parsed and the files did not compile, the second call finds nothing modified
and does not parse. -/
theorem checkReload_twice_same (d : Deps Plate Data) (w1 w2 : World) (t : tmpl Plate)
    (hstat : w2.stat = w1.stat) (hread : w2.readFile = w1.readFile)
    (hpast : ∀ v ∈ t.files, ∀ m, w1.stat v.filename = some m → m ≤ w1.now) :
    tmpl.checkReload d w2 (tmpl.checkReload d w1 t) = tmpl.checkReload d w1 t ∧
    ((t.files = [] ∨ tfiles.modifiedSince w1 t.files t.parsedAt = false ∨
        ∃ tm, d.parseFiles (tfiles.name d t.files) t.leftDelim t.rightDelim w1.readFile
          (tfiles.filenames t.files) = Except.ok tm) →
      tfiles.modifiedSince w2 (tmpl.checkReload d w1 t).files
        (tmpl.checkReload d w1 t).parsedAt = false) := by
  have hnot : tfiles.modifiedSince w1 t.files w1.now = false := by
    cases hm : tfiles.modifiedSince w1 t.files w1.now with
    | false => rfl
    | true =>
      obtain ⟨v, hv, m, hs, hlt⟩ := (modifiedSince_eq_true_iff w1 t.files w1.now).1 hm
      exact absurd hlt (Nat.not_lt.mpr (hpast v hv m hs))
  by_cases h0 : t.files.length = 0
  · have hnil : t.files = [] := List.length_eq_zero.mp h0
    have h1 : tmpl.checkReload d w1 t = t := by simp [tmpl.checkReload, h0]
    rw [h1]
    refine ⟨by simp [tmpl.checkReload, h0], fun _ => ?_⟩
    rw [hnil]
    rfl
  · have hne : t.files ≠ [] := fun h => h0 (by simp [h])
    cases hm : tfiles.modifiedSince w1 t.files t.parsedAt with
    | false =>
      have h1 : tmpl.checkReload d w1 t = t := by simp [tmpl.checkReload, h0, hm]
      have hm2 : tfiles.modifiedSince w2 t.files t.parsedAt = false := by
        rw [modifiedSince_world w1 w2 t.files t.parsedAt hstat, hm]
      rw [h1]
      exact ⟨by simp [tmpl.checkReload, h0, hm2], fun _ => hm2⟩
    | true =>
      have hm2 : tfiles.modifiedSince w2 t.files t.parsedAt = true := by
        rw [modifiedSince_world w1 w2 t.files t.parsedAt hstat, hm]
      cases hp : d.parseFiles (tfiles.name d t.files) t.leftDelim t.rightDelim w1.readFile
          (tfiles.filenames t.files) with
      | error e =>
        have h1 : tmpl.checkReload d w1 t = t := by
          simp [tmpl.checkReload, tmpl.parse, h0, hm, hp]
        rw [h1]
        refine ⟨?_, ?_⟩
        · simp [tmpl.checkReload, tmpl.parse, h0, hm2, hread, hp]
        · intro h
          rcases h with h | h | ⟨tm, h⟩
          · exact absurd h hne
          · cases h
          · cases h
      | ok tm =>
        have h1 : tmpl.checkReload d w1 t =
            { t with plate := some tm, parsedAt := w1.now,
                     files := (tfiles.setModTimes w1 t.files).1 } := by
          simp [tmpl.checkReload, tmpl.parse, h0, hm, hp]
        have hm3 : tfiles.modifiedSince w2 (tfiles.setModTimes w1 t.files).1 w1.now = false := by
          rw [modifiedSince_setModTimes, modifiedSince_world w1 w2 t.files w1.now hstat, hnot]
        rw [h1]
        refine ⟨?_, fun _ => hm3⟩
        simp [tmpl.checkReload, hm3]

/-- The check of `TestAutoReload` with a file dated before the clock: the file
was rewritten at time 12, the first check happens at time 13 and the second
at time 14. -/
theorem checkReload_twice_same_witness :
    (tmpl.checkReload toyDeps (worldT0 "T0 template updated" (some 12) 13) tmplT0).parsedAt =
      13 ∧
    tmpl.checkReload toyDeps (worldT0 "T0 template updated" (some 12) 14)
      (tmpl.checkReload toyDeps (worldT0 "T0 template updated" (some 12) 13) tmplT0) =
    tmpl.checkReload toyDeps (worldT0 "T0 template updated" (some 12) 13) tmplT0 :=
  ⟨by decide,
    (checkReload_twice_same toyDeps (worldT0 "T0 template updated" (some 12) 13)
      (worldT0 "T0 template updated" (some 12) 14) tmplT0 rfl rfl
      (by
        intro v hv m hm
        simp only [tmplT0, List.mem_singleton] at hv
        subst hv
        simp only [worldT0, if_true, Option.some.injEq] at hm
        subst hm
        decide)).1⟩

end twice

/-! ## simpleFormat -/

theorem Split_ne_nil (s : List Char) (sep : Char) : Split s sep ≠ [] := by
  induction s with
  | nil => simp [Split]
  | cons c cs ih =>
    by_cases h : c = sep
    · simp [Split, h]
    · cases hs : Split cs sep with
      | nil => exact absurd hs ih
      | cons l ls => simp [Split, h, hs]

theorem Split_intercalate (s : List Char) (sep : Char) :
    List.intercalate [sep] (Split s sep) = s := by
  induction s with
  | nil => simp [Split, List.intercalate]
  | cons c cs ih =>
    cases hs : Split cs sep with
    | nil => exact absurd hs (Split_ne_nil cs sep)
    | cons l ls =>
      rw [hs] at ih
      by_cases h : c = sep
      · subst h
        simp only [Split, if_true, hs]
        simp only [List.intercalate, List.intersperse, List.flatten] at ih ⊢
        simp [ih]
      · simp only [Split, h, if_false, hs]
        cases ls with
        | nil =>
          simp only [List.intercalate, List.intersperse, List.flatten] at ih ⊢
          simp at ih ⊢
          exact ih
        | cons l2 ls2 =>
          simp only [List.intercalate, List.intersperse, List.flatten] at ih ⊢
          simp at ih ⊢
          exact ih

theorem Split_no_sep (s : List Char) (sep : Char) : ∀ l ∈ Split s sep, sep ∉ l := by
  induction s with
  | nil => simp [Split]
  | cons c cs ih =>
    by_cases h : c = sep
    · subst h
      intro l hl
      simp only [Split, if_true, List.mem_cons] at hl
      rcases hl with hl | hl
      · subst hl
        simp
      · exact ih l hl
    · cases hs : Split cs sep with
      | nil => exact absurd hs (Split_ne_nil cs sep)
      | cons l0 ls =>
        rw [hs] at ih
        intro l hl
        simp only [Split, h, if_false, hs, List.mem_cons] at hl
        rcases hl with hl | hl
        · subst hl
          intro hmem
          rcases List.mem_cons.1 hmem with hmem | hmem
          · exact h hmem.symm
          · exact ih l0 (List.mem_cons_self _ _) hmem
        · exact ih l (List.mem_cons_of_mem _ hl)

theorem simpleFormatLoop_eq (lines paragraphs : List (List Char)) :
    simpleFormatLoop lines paragraphs =
      paragraphs ++ List.map (fun line => "<p>".data ++ HTMLEscapeString line ++ "</p>".data)
        (List.filter (fun line => decide (line ≠ [])) (List.map TrimSpace lines)) := by
  induction lines generalizing paragraphs with
  | nil => simp [simpleFormatLoop]
  | cons v rest ih =>
    by_cases h : TrimSpace v = []
    · simp [simpleFormatLoop, h, ih]
    · have h' : ¬ (TrimSpace v).length = 0 := fun hl => h (List.length_eq_zero.mp hl)
      simp [simpleFormatLoop, h, h', ih]


theorem htmlEscape_no_raw (c x : Char) (h : x ∈ htmlEscape c) :
    x ≠ '<' ∧ x ≠ '>' ∧ x ≠ Char.ofNat 39 ∧ x ≠ Char.ofNat 34 := by
  unfold htmlEscape at h
  split_ifs at h with h1 h2 h3 h4 h5 h6
  · simp at h
    rcases h with h | h | h | h | h <;> subst h <;> decide
  · simp at h
    rcases h with h | h | h | h | h <;> subst h <;> decide
  · simp at h
    rcases h with h | h | h | h | h <;> subst h <;> decide
  · simp at h
    rcases h with h | h | h | h <;> subst h <;> decide
  · simp at h
    rcases h with h | h | h | h <;> subst h <;> decide
  · simp at h
    subst h
    decide
  · simp at h
    subst h
    exact ⟨h4, h5, h2, h1⟩

theorem amp_head_split (ent pre post : List Char) (hent : '&' ∉ ent)
    (h : '&' :: ent = pre ++ '&' :: post) : post = ent := by
  cases pre with
  | nil =>
    simp at h
    exact h.symm
  | cons p pre' =>
    simp at h
    exact absurd (h.2 ▸ List.mem_append_right pre' (List.mem_cons_self _ _)) hent

/-- The names of the five entities, without the leading `&`. -/
theorem htmlEscape_amp (c : Char) (pre post : List Char)
    (h : htmlEscape c = pre ++ '&' :: post) :
    post ∈ ["#34;".data, "#39;".data, "amp;".data, "lt;".data, "gt;".data] := by
  unfold htmlEscape at h
  split_ifs at h with h1 h2 h3 h4 h5 h6
  · have := amp_head_split "#34;".data pre post (by decide) h
    simp [this]
  · have := amp_head_split "#39;".data pre post (by decide) h
    simp [this]
  · have := amp_head_split "amp;".data pre post (by decide) h
    simp [this]
  · have := amp_head_split "lt;".data pre post (by decide) h
    simp [this]
  · have := amp_head_split "gt;".data pre post (by decide) h
    simp [this]
  · cases pre with
    | nil => simp at h
    | cons p pre' => simp at h
  · cases pre with
    | nil =>
      simp at h
      exact absurd h.1 h3
    | cons p pre' => simp at h

theorem HTMLEscapeString_amp (line pre post : List Char)
    (h : HTMLEscapeString line = pre ++ '&' :: post) :
    ∃ ent ∈ ["#34;".data, "#39;".data, "amp;".data, "lt;".data, "gt;".data], ent <+: post := by
  induction line generalizing pre with
  | nil => simp [HTMLEscapeString] at h
  | cons c cs ih =>
    have hc : HTMLEscapeString (c :: cs) = htmlEscape c ++ HTMLEscapeString cs := by
      simp [HTMLEscapeString]
    rw [hc, List.append_eq_append_iff] at h
    rcases h with ⟨a', hpre, hrest⟩ | ⟨c', hesc, hpost⟩
    · exact ih a' hrest
    · cases c' with
      | nil =>
        simp at hpost
        exact ih [] hpost.symm
      | cons x c'' =>
        simp at hpost
        obtain ⟨hx, hpost⟩ := hpost
        subst hx
        exact ⟨c'', htmlEscape_amp c pre c'' hesc, ⟨_, hpost.symm⟩⟩

theorem TrimSpace_eq_nil_iff (l : List Char) :
    TrimSpace l = [] ↔ ∀ c ∈ l, isSpace c = true := by
  unfold TrimSpace
  rw [List.reverse_eq_nil_iff]
  constructor
  · intro h
    by_cases hd : l.dropWhile isSpace = []
    · exact List.dropWhile_eq_nil_iff.1 hd
    · exfalso
      have hall := List.dropWhile_eq_nil_iff.1 h
      have hhead := List.head_dropWhile_not isSpace l hd
      have hmem : (l.dropWhile isSpace).head hd ∈ (l.dropWhile isSpace).reverse :=
        List.mem_reverse.2 (List.head_mem hd)
      rw [hall _ hmem] at hhead
      cases hhead
  · intro h
    have hd : l.dropWhile isSpace = [] := List.dropWhile_eq_nil_iff.2 h
    simp [hd]

/-- C10: `simpleFormat` returns the concatenation, in input order and with
nothing between them, of `<p>` + `HTMLEscapeString(line)` + `</p>` for the
lines of the input (its newline-separated pieces) that are not empty once
surrounding whitespace is trimmed, `line` being the trimmed line as in the
code; a line that is all whitespace contributes nothing; the escaped text
holds no `<`, no `>`, no single and no double quote, each `&` in it starts one
of the five entities, and the five characters are written as `&lt;`, `&gt;`,
`&amp;`, `&#39;` and `&#34;`. -/
theorem simpleFormat_paragraphs (s : String) :
    (simpleFormat s).data =
      (List.map (fun line => "<p>".data ++ HTMLEscapeString line ++ "</p>".data)
        (List.filter (fun line => decide (line ≠ []))
          (List.map TrimSpace (Split s.data '\n')))).flatten ∧
    (List.intercalate ['\n'] (Split s.data '\n') = s.data ∧
      ∀ l ∈ Split s.data '\n', '\n' ∉ l) ∧
    (∀ l : List Char, TrimSpace l = [] ↔ ∀ c ∈ l, isSpace c = true) ∧
    (∀ line : List Char, ∀ x ∈ HTMLEscapeString line,
      x ≠ '<' ∧ x ≠ '>' ∧ x ≠ Char.ofNat 39 ∧ x ≠ Char.ofNat 34) ∧
    (∀ line pre post : List Char, HTMLEscapeString line = pre ++ '&' :: post →
      ∃ ent ∈ ["#34;".data, "#39;".data, "amp;".data, "lt;".data, "gt;".data],
        ent <+: post) ∧
    HTMLEscapeString ['<', '>', '&', Char.ofNat 39, Char.ofNat 34] =
      "&lt;&gt;&amp;&#39;&#34;".data := by
  refine ⟨?_, ⟨Split_intercalate _ _, Split_no_sep _ _⟩, TrimSpace_eq_nil_iff, ?_,
    HTMLEscapeString_amp, by decide⟩
  · simp [simpleFormat, simpleFormatLoop_eq]
  · intro line x hx
    obtain ⟨c, -, hc⟩ := List.mem_flatMap.1 hx
    exact htmlEscape_no_raw c x hc

/-- `TestSimpleFormat` and `TestSimpleFormatEscape`. -/
theorem simpleFormat_tests :
    simpleFormat "hello\nline 2\nline 3\n" = "<p>hello</p><p>line 2</p><p>line 3</p>" ∧
    simpleFormat (String.mk ("hello <script>alert(".data ++ [Char.ofNat 39] ++ "message".data ++
        [Char.ofNat 39] ++ ")</script>\nline 2\n".data)) =
      "<p>hello &lt;script&gt;alert(&#39;message&#39;)&lt;/script&gt;</p><p>line 2</p>" := by
  decide

/-! ## Registered templates have an executable

`Execute` is never called through a nil pointer in a pool built by `New` and
the registration calls: no render of such a pool panics. -/

section plates

variable {Plate Data : Type}

theorem platesSet_mapSet (p : Pool Plate) (name : String) (nt : tmpl Plate)
    (hp : p.platesSet) (hnt : nt.plate ≠ none) :
    Pool.platesSet { p with tmpls := mapSet p.tmpls name nt } := by
  intro n t hget
  by_cases hn : n = name
  · subst hn
    simp only [mapGet_mapSet_same, Option.some.injEq] at hget
    subst hget
    exact hnt
  · simp only [mapGet_mapSet_ne _ _ _ _ hn] at hget
    exact hp n t hget

theorem platesSet_New (contentDir : String) (reload : Bool) :
    (New contentDir reload : Pool Plate).platesSet := by
  intro n t hget
  simp [New, mapGet] at hget

theorem platesSet_Register (d : Deps Plate Data) (w : World) (p : Pool Plate)
    (name leftDelim rightDelim : String) (hp : p.platesSet) :
    (Pool.Register d w p name leftDelim rightDelim).pool.platesSet := by
  have h := register_facts d w p name leftDelim rightDelim
  cases he : (Pool.Register d w p name leftDelim rightDelim).err with
  | none =>
    obtain ⟨nt, hnt, hpool, -⟩ := h.2.1 he
    rw [hpool]
    exact platesSet_mapSet p name nt hp hnt
  | some e =>
    rw [h.2.2.1 (by simp [he])]
    exact hp

theorem platesSet_RegisterMulti (d : Deps Plate Data) (w : World) (p : Pool Plate)
    (name leftDelim rightDelim : String) (filenames : List String) (hp : p.platesSet) :
    (Pool.RegisterMulti d w p name leftDelim rightDelim filenames).pool.platesSet := by
  have h := registerMulti_facts d w p name leftDelim rightDelim filenames
  cases he : (Pool.RegisterMulti d w p name leftDelim rightDelim filenames).err with
  | none =>
    obtain ⟨nt, hnt, hpool, -⟩ := h.2.1 he
    rw [hpool]
    exact platesSet_mapSet p name nt hp hnt
  | some e =>
    rw [h.2.2.1 (by simp [he])]
    exact hp

theorem platesSet_RegisterString (d : Deps Plate Data) (p : Pool Plate)
    (name content : String) (hp : p.platesSet) :
    (Pool.RegisterString d p name content).pool.platesSet := by
  have h := registerString_facts d p name content
  cases he : (Pool.RegisterString d p name content).err with
  | none =>
    obtain ⟨nt, hnt, hpool, -⟩ := h.2.1 he
    rw [hpool]
    exact platesSet_mapSet p name nt hp hnt
  | some e =>
    rw [h.2.2.1 (by simp [he])]
    exact hp

theorem platesSet_RegisterLayout (d : Deps Plate Data) (wh wf : World) (p : Pool Plate)
    (name header footer leftDelim rightDelim : String) (hp : p.platesSet) :
    (Pool.RegisterLayout d wh wf p name header footer leftDelim rightDelim).pool.platesSet := by
  have h1 := platesSet_Register d wh p header leftDelim rightDelim hp
  have h2 := platesSet_Register d wf (Pool.Register d wh p header leftDelim rightDelim).pool
    footer leftDelim rightDelim h1
  unfold Pool.RegisterLayout
  rcases hr1 : Pool.Register d wh p header leftDelim rightDelim with ⟨p1, e1⟩
  rw [hr1] at h1 h2
  cases e1 with
  | some e1 => exact h1
  | none =>
    rcases hr2 : Pool.Register d wf p1 footer leftDelim rightDelim with ⟨p2, e2⟩
    rw [hr2] at h2
    cases e2 with
    | some e2 =>
      simp only [hr2]
      exact h2
    | none =>
      simp only [hr2]
      exact h2

theorem parse_plate_ne_none (d : Deps Plate Data) (w : World) (t : tmpl Plate)
    (h : t.plate ≠ none) : (tmpl.parse d w t).1.plate ≠ none := by
  unfold tmpl.parse
  by_cases h0 : t.files.length = 0
  · simp [h0, h]
  · simp only [h0, if_false]
    cases hp : d.parseFiles (tfiles.name d t.files) t.leftDelim t.rightDelim w.readFile
        (tfiles.filenames t.files) with
    | error e => exact h
    | ok tm => simp

theorem checkReload_plate_ne_none (d : Deps Plate Data) (w : World) (t : tmpl Plate)
    (h : t.plate ≠ none) : (tmpl.checkReload d w t).plate ≠ none := by
  unfold tmpl.checkReload
  split
  · exact h
  · split
    · exact parse_plate_ne_none d w t h
    · exact h

/-- A render step of a pool whose templates all have an executable does not
panic, and leaves such a pool. -/
theorem templateRun_no_panic (d : Deps Plate Data) (w : World) (p : Pool Plate) (n : String)
    (data : Data) (wr : String) (hp : p.platesSet) :
    (Pool.templateRun d w p n data wr).outcome ≠ Outcome.panic ∧
    (Pool.templateRun d w p n data wr).pool.platesSet := by
  cases hg : mapGet p.tmpls n with
  | none =>
    rw [templateRun_notFound d w p n data wr hg]
    exact ⟨by simp, hp⟩
  | some t =>
    have ht : (if p.reload then tmpl.checkReload d w t else t).plate ≠ none := by
      split
      · exact checkReload_plate_ne_none d w t (hp n t hg)
      · exact hp n t hg
    obtain ⟨hpool, -, hcase⟩ := templateRun_found d w p n data wr t hg
    refine ⟨?_, ?_⟩
    · rcases hcase with ⟨hnone, -, -⟩ | ⟨pl, -, -, hout⟩
      · exact absurd hnone ht
      · rw [hout]
        cases (d.execute pl data).2 <;> simp [Outcome.ofOption]
    · rw [hpool]
      cases hr : p.reload with
      | false => simpa using hp
      | true =>
        simp only [if_true]
        rw [hr] at ht
        exact platesSet_mapSet p n _ hp ht

/-- `Render` of a pool whose templates all have an executable does not
panic: it ends without error or returns an error. -/
theorem render_no_panic (d : Deps Plate Data) (w1 w2 w3 : World) (p : Pool Plate)
    (L name : String) (data : Data) (wr : String) (hp : p.platesSet) :
    (Pool.Render d w1 w2 w3 p L name data wr).outcome ≠ Outcome.panic := by
  unfold Pool.Render
  cases hL : mapGet p.layouts L with
  | none => simp
  | some lout =>
    simp only
    have h1 := templateRun_no_panic d w1 p lout.header data wr hp
    have h2 := templateRun_no_panic d w2 (Pool.templateRun d w1 p lout.header data wr).pool name
      data (Pool.templateRun d w1 p lout.header data wr).wr h1.2
    have h3 := templateRun_no_panic d w3
      (Pool.templateRun d w2 (Pool.templateRun d w1 p lout.header data wr).pool name data
        (Pool.templateRun d w1 p lout.header data wr).wr).pool lout.footer data
      (Pool.templateRun d w2 (Pool.templateRun d w1 p lout.header data wr).pool name data
        (Pool.templateRun d w1 p lout.header data wr).wr).wr h2.2
    split
    · exact h1.1
    · split
      · exact h2.1
      · exact h3.1

end plates

end Spitz
